import Mathlib

/-! VOID V6 API server (`src/api-server.js`): a shallow embedding

The server keeps two in-memory arrays, `users` and `posts`, and answers seven
routes.  Each route handler is embedded as a function from the store (and the
decoded request) to the new store and the response.  In-place mutation of the
object returned by `posts.find` becomes a rewrite of the first matching post.

Values the handlers obtain from the outside world are made explicit:
* `Env` holds the library primitives (`bcrypt.hash`, `bcrypt.compare`,
  `jwt.sign`, `jwt.verify`), the signing secret being folded into them;
* `Oracle` holds what `new Date()`, `uuidv4()` and the bcrypt salt generator
  return while one request is served.

Request body fields are strings that may be absent, as the boundary contract
of the specification (section 6) types them.
-/

namespace ApiServer

/-! ## Data model -/

/-- A record of the `users` array (lines 55-61). -/
structure User where
  id : String
  username : String
  email : Option String
  password : String
  createdAt : Nat
deriving DecidableEq, Repr

/-- A comment object (lines 194-200). -/
structure Comment where
  id : String
  authorId : String
  author : String
  content : String
  createdAt : Nat
deriving DecidableEq, Repr

/-- A post object (lines 129-138). -/
structure Post where
  id : String
  authorId : String
  author : String
  content : Option String
  image : Option String
  likes : List String
  comments : List Comment
  createdAt : Nat
deriving DecidableEq, Repr

/-- The two module-level arrays (lines 17-18). -/
structure Store where
  users : List User
  posts : List Post
deriving DecidableEq, Repr

/-- The store at start-up: `const users = []; const posts = [];`. -/
def Store.empty : Store := ⟨[], []⟩

/-- The decoded payload of a session token, as `jwt.verify` returns it. -/
structure Claims where
  userId : String
  username : String
  iat : Nat
  exp : Nat
deriving DecidableEq, Repr

/-- The three error classes `jwt.verify` throws. -/
inductive JwtError where
  | TokenExpiredError
  | JsonWebTokenError
  | NotBeforeError
deriving DecidableEq, Repr

/-- The library primitives the handlers call.  `hash` and `compare` return
`none` when the promise rejects; `compare` receives the request's password
field as it is, present or absent. -/
structure Env where
  hash : String → Nat → Option String
  compare : Option String → String → Option Bool
  sign : String → String → Nat → String
  verify : String → Nat → Except JwtError Claims

/-- What the ambient calls return while one request is served: `new Date()`,
`uuidv4()` and the salt drawn by `bcrypt.hash`. -/
structure Oracle where
  now : Nat
  uuid : String
  salt : Nat
deriving DecidableEq, Repr

/-! ## Requests and responses -/

/-- The `user` object of a register or login response (lines 74-78). -/
structure UserView where
  id : String
  username : String
  email : Option String
deriving DecidableEq, Repr

/-- The JSON bodies the routes send. -/
inductive Body where
  | error (error : String)
  | session (token : String) (user : UserView)
  | post (post : Post)
  | posts (posts : List Post)
  | likes (likes : Nat)
  | comment (comment : Comment)
  | health (timestamp : Nat)
deriving DecidableEq, Repr

/-- An HTTP response: status code and JSON body. -/
structure Response where
  status : Nat
  body : Body
deriving DecidableEq, Repr

/-- The call `res.json(body)`: status 200. -/
def Response.json (body : Body) : Response := ⟨200, body⟩

/-- The body of `POST /api/auth/register` (line 40). -/
structure RegisterBody where
  username : Option String
  email : Option String
  password : Option String
deriving DecidableEq, Repr

/-- The body of `POST /api/auth/login` (line 88). -/
structure LoginBody where
  username : Option String
  password : Option String
deriving DecidableEq, Repr

/-- The body of `POST /api/posts` (line 123). -/
structure PostBody where
  content : Option String
  image : Option String
deriving DecidableEq, Repr

/-- The body of `POST /api/posts/:id/comments` (line 182). -/
structure CommentBody where
  content : Option String
deriving DecidableEq, Repr

/-- A request to one of the seven routes; `authorization` is the value of the
header of that name, `id` the path parameter. -/
inductive Request where
  | register (body : RegisterBody)
  | login (body : LoginBody)
  | createPost (authorization : Option String) (body : PostBody)
  | listPosts
  | toggleLike (authorization : Option String) (id : String)
  | addComment (authorization : Option String) (id : String) (body : CommentBody)
  | health
deriving DecidableEq, Repr

/-! ## The error responses of the source, named after the error kinds -/

/-- Line 25: no token. -/
def MissingTokenError : Response := ⟨401, .error "لا يوجد token"⟩

/-- Line 33: `jwt.verify` threw. -/
def InvalidTokenError : Response := ⟨401, .error "Token غير صالح"⟩

/-- Line 44: username or password missing. -/
def RegisterValidationError : Response :=
  ⟨400, .error "يجب إدخال اسم المستخدم وكلمة المرور"⟩

/-- Line 48: the username is taken. -/
def DuplicateUsernameError : Response := ⟨400, .error "اسم المستخدم موجود مسبقاً"⟩

/-- Lines 92 and 97: login refused. -/
def InvalidCredentialsError : Response := ⟨400, .error "بيانات الدخول غير صحيحة"⟩

/-- Line 126: neither content nor image. -/
def PostValidationError : Response := ⟨400, .error "يجب إضافة نص أو صورة"⟩

/-- Lines 162 and 191: no such post. -/
def NotFoundError : Response := ⟨404, .error "المنشور غير موجود"⟩

/-- Line 185: comment without content. -/
def CommentValidationError : Response := ⟨400, .error "يجب إضافة نص للتعليق"⟩

/-- The `catch` branches (lines 82, 117, 145, 153, 176, 207). -/
def ServerFault : Response := ⟨500, .error "حدث خطأ في السيرفر"⟩

/-! ## JavaScript helpers -/

/-- Truthiness of an optional string: absent and `""` are falsy. -/
def truthy : Option String → Bool
  | none => false
  | some s => s != ""

/-- The method `String.prototype.split(' ')` on a list of characters: cut at
every single space, empty pieces kept. -/
def splitSpace : List Char → List (List Char)
  | [] => [[]]
  | c :: cs =>
    if c = ' ' then [] :: splitSpace cs
    else
      match splitSpace cs with
      | [] => [[c]]
      | w :: ws => (c :: w) :: ws

/-- The call `s.split(' ')`. -/
def split (s : String) : List String := (splitSpace s.toList).map String.mk

/-- The method `Array.prototype.indexOf`: the first index holding `x`, or `-1`. -/
def indexOf (xs : List String) (x : String) : Int :=
  if x ∈ xs then (List.indexOf x xs : Int) else -1

/-- The call `xs.splice(i, 1)` for `i ≥ 0`: the array without the element at
index `i`. -/
def splice1 (xs : List String) (i : Int) : List String := xs.eraseIdx i.toNat

/-- In-place mutation of the object `posts.find(p => p.id === id)` returned:
the first post with that id is replaced by its image under `f`. -/
def mutateFound (posts : List Post) (id : String) (f : Post → Post) : List Post :=
  match posts with
  | [] => []
  | p :: rest => if p.id == id then f p :: rest else p :: mutateFound rest id f

/-! ## Middleware and route handlers -/

/-- The function `authMiddleware` (lines 21-35): the decoded claims, or the
response that ends the request. -/
def authMiddleware (env : Env) (o : Oracle) (authorization : Option String) :
    Except Response Claims :=
  let token : Option String := authorization.bind (fun h => (split h)[1]?)
  if !truthy token then .error MissingTokenError
  else
    match env.verify (token.getD "") o.now with
    | .ok decoded => .ok decoded
    | .error _ => .error InvalidTokenError

/-- Lines 66-79: sign a token for `user` and answer with it. -/
def sessionResponse (env : Env) (o : Oracle) (user : User) : Response :=
  .json (.session (env.sign user.id user.username o.now)
    ⟨user.id, user.username, user.email⟩)

/-- Lines 42-49 of `POST /api/auth/register`: the checks made before the
password is hashed; `some r` when one of them answers the request. -/
def registerCheck (s : Store) (body : RegisterBody) : Option Response :=
  if !truthy body.username || !truthy body.password then some RegisterValidationError
  else if (s.users.find? (fun u => some u.username == body.username)).isSome then
    some DuplicateUsernameError
  else none

/-- Lines 55-79 of `POST /api/auth/register`: what happens once
`bcrypt.hash` has resolved to `hashedPassword`. -/
def registerStore (env : Env) (s : Store) (o : Oracle) (body : RegisterBody)
    (hashedPassword : String) : Store × Response :=
  let user : User :=
    { id := o.uuid, username := body.username.getD "", email := body.email,
      password := hashedPassword, createdAt := o.now }
  ({ s with users := s.users ++ [user] }, sessionResponse env o user)

/-- The handler of `POST /api/auth/register` (lines 38-84), run to completion. -/
def register (env : Env) (s : Store) (o : Oracle) (body : RegisterBody) : Store × Response :=
  match registerCheck s body with
  | some r => (s, r)
  | none =>
    match env.hash (body.password.getD "") o.salt with
    | none => (s, ServerFault)
    | some hashedPassword => registerStore env s o body hashedPassword

/-- The handler of `POST /api/auth/login` (lines 86-119). -/
def login (env : Env) (s : Store) (o : Oracle) (body : LoginBody) : Store × Response :=
  match s.users.find? (fun u => some u.username == body.username) with
  | none => (s, InvalidCredentialsError)
  | some user =>
    match env.compare body.password user.password with
    | none => (s, ServerFault)
    | some validPassword =>
      if !validPassword then (s, InvalidCredentialsError)
      else (s, sessionResponse env o user)

/-- The handler of `POST /api/posts` behind the middleware (lines 122-146);
`user` is `req.user`. -/
def createPost (s : Store) (o : Oracle) (user : Claims) (body : PostBody) : Store × Response :=
  if !truthy body.content && !truthy body.image then (s, PostValidationError)
  else
    let post : Post :=
      { id := o.uuid, authorId := user.userId, author := user.username,
        content := body.content, image := body.image, likes := [], comments := [],
        createdAt := o.now }
    ({ s with posts := post :: s.posts }, .json (.post post))

/-- The handler of `GET /api/posts` (lines 149-155). -/
def listPosts (s : Store) : Store × Response := (s, .json (.posts s.posts))

/-- The handler of `POST /api/posts/:id/like` behind the middleware
(lines 158-177). -/
def toggleLike (s : Store) (user : Claims) (id : String) : Store × Response :=
  match s.posts.find? (fun p => p.id == id) with
  | none => (s, NotFoundError)
  | some post =>
    let likeIndex := indexOf post.likes user.userId
    let likes :=
      if likeIndex = -1 then post.likes ++ [user.userId] else splice1 post.likes likeIndex
    ({ s with posts := mutateFound s.posts id (fun p => { p with likes := likes }) },
      .json (.likes likes.length))

/-- The handler of `POST /api/posts/:id/comments` behind the middleware
(lines 181-208). -/
def addComment (s : Store) (o : Oracle) (user : Claims) (id : String) (body : CommentBody) :
    Store × Response :=
  if !truthy body.content then (s, CommentValidationError)
  else
    match s.posts.find? (fun p => p.id == id) with
    | none => (s, NotFoundError)
    | some post =>
      let comment : Comment :=
        { id := o.uuid, authorId := user.userId, author := user.username,
          content := body.content.getD "", createdAt := o.now }
      let comments := post.comments ++ [comment]
      ({ s with posts := mutateFound s.posts id (fun p => { p with comments := comments }) },
        .json (.comment comment))

/-- The handler of `GET /health` (lines 212-214). -/
def health (s : Store) (o : Oracle) : Store × Response := (s, .json (.health o.now))

/-- A route guarded by `authMiddleware`: the handler runs only through `next()`. -/
def guarded (env : Env) (s : Store) (o : Oracle) (authorization : Option String)
    (handler : Claims → Store × Response) : Store × Response :=
  match authMiddleware env o authorization with
  | .error r => (s, r)
  | .ok user => handler user

/-- The router: one request served to completion. -/
def step (env : Env) (s : Store) (o : Oracle) : Request → Store × Response
  | .register body => register env s o body
  | .login body => login env s o body
  | .createPost authorization body => guarded env s o authorization (fun u => createPost s o u body)
  | .listPosts => listPosts s
  | .toggleLike authorization id => guarded env s o authorization (fun u => toggleLike s u id)
  | .addComment authorization id body =>
    guarded env s o authorization (fun u => addComment s o u id body)
  | .health => health s o

/-- Serve a sequence of requests one after the other, each to completion,
starting from store `s`; the responses are returned in order. -/
def serve (env : Env) (s : Store) : List (Oracle × Request) → Store × List Response
  | [] => (s, [])
  | (o, req) :: rest =>
    let r := step env s o req
    let t := serve env r.1 rest
    (t.1, r.2 :: t.2)

/-- The store after serving `reqs` from the empty store. -/
def run (env : Env) (reqs : List (Oracle × Request)) : Store := (serve env Store.empty reqs).1

/-- The posts that successful `POST /api/posts` responses carried, in response order. -/
def createdPosts : List Response → List Post
  | [] => []
  | ⟨_, .post p⟩ :: rest => p :: createdPosts rest
  | _ :: rest => createdPosts rest

/-- A post without its mutable parts (likes and comments). -/
def Post.frozen (p : Post) : Post := { p with likes := [], comments := [] }

/-- The like list after user `u` toggles: `u` leaves if present, joins at the
end otherwise. -/
def toggled (likes : List String) (u : String) : List String :=
  if u ∈ likes then likes.erase u else likes ++ [u]

/-- The comments that successful `POST /api/posts/:id/comments` responses
carried, in response order. -/
def returnedComments : List Response → List Comment
  | [] => []
  | ⟨_, .comment c⟩ :: rest => c :: returnedComments rest
  | _ :: rest => returnedComments rest

/-- The request is a comment request for post `id`. -/
def commentsOn (id : String) : Request → Bool
  | .addComment _ id2 _ => id2 == id
  | _ => false

/-! ## Predicates on stores -/

/-- Every like list is free of repetitions. -/
def LikesNodup (s : Store) : Prop := ∀ p ∈ s.posts, p.likes.Nodup

/-- No two user records carry the same username. -/
def UsernamesUnique (s : Store) : Prop :=
  s.users.Pairwise (fun a b => a.username ≠ b.username)

/-- The law asked of the hashing primitive: a password compares equal to every
hash made of it. -/
def HashSound (env : Env) : Prop :=
  ∀ p salt h, env.hash p salt = some h → env.compare (some p) h = some true

/-! ## A small concrete environment and scenario

A toy instance of the primitives, used to run the handlers on concrete
requests: the hash of a password is the password, a token is the user id it
was signed for and never expires, and `compare` rejects an absent password as
`bcrypt.compare` does for a non-string argument. -/

/-- The toy primitives. -/
def toyEnv : Env where
  hash := fun p _ => some p
  compare := fun p h =>
    match p with
    | none => none
    | some p => some (p == h)
  sign := fun userId _ _ => userId
  verify := fun t now => .ok ⟨t, t, now, now + 604800⟩

/-- An oracle returning time `n` and uuid `id`. -/
def at_ (n : Nat) (id : String) : Oracle := ⟨n, id, 0⟩

/-- Claims of user `u`. -/
def claimsOf (u : String) : Claims := ⟨u, u, 0, 604800⟩

/-- The scenario of the specification: ali registers, posts "hi" and likes it;
a second user likes it too. -/
def scenario : List (Oracle × Request) :=
  [ (at_ 1 "u1", .register ⟨some "ali", none, some "pw123"⟩),
    (at_ 2 "p1", .createPost (some "Bearer u1") ⟨some "hi", none⟩),
    (at_ 3 "", .toggleLike (some "Bearer u1") "p1"),
    (at_ 4 "", .toggleLike (some "Bearer u2") "p1") ]

/-- The post of the scenario once both users have liked it. -/
def scenarioPost : Post :=
  { id := "p1", authorId := "u1", author := "u1", content := some "hi", image := none,
    likes := ["u1", "u2"], comments := [], createdAt := 2 }

/-- The user record of ali in the scenario. -/
def ali : User :=
  { id := "u1", username := "ali", email := none, password := "pw123", createdAt := 1 }

/-! ## Definitions for the authorization gate -/

/-- Line 22: the token `req.headers.authorization?.split(' ')[1]`. -/
def extractToken (authorization : Option String) : Option String :=
  authorization.bind (fun h => (split h)[1]?)

/-- The routes mounted behind `authMiddleware`: the header the request carries
and the handler that `next()` runs; `none` for the open routes. -/
def guardedRoute (s : Store) (o : Oracle) :
    Request → Option (Option String × (Claims → Store × Response))
  | .createPost authorization body => some (authorization, fun u => createPost s o u body)
  | .toggleLike authorization id => some (authorization, fun u => toggleLike s u id)
  | .addComment authorization id body =>
    some (authorization, fun u => addComment s o u id body)
  | _ => none

/-- The option `expiresIn: '7d'` in seconds. -/
def sevenDays : Nat := 604800

/-- The law asked of the token primitives: a token verifies, from the moment it
was signed and before its expiry seven days later, to claims carrying the user
id and username it was signed for.  At the instant of expiry and after it
`jwt.verify` rejects, so nothing is asked there. -/
def JwtSound (env : Env) : Prop :=
  ∀ userId username iat now, iat ≤ now → now < iat + sevenDays →
    ∃ c, env.verify (env.sign userId username iat) now = .ok c ∧
      c.userId = userId ∧ c.username = username

/-- The nine error responses the source sends. -/
def errorResponses : List Response :=
  [MissingTokenError, InvalidTokenError, RegisterValidationError, DuplicateUsernameError,
    InvalidCredentialsError, PostValidationError, NotFoundError, CommentValidationError,
    ServerFault]

/-! ## A second concrete environment, with tokens that expire

Its tokens spell, in unary, the time of issue and the length of the user id,
followed by the user id and the username; `verify` decodes them, rejects what
does not decode and reports expiry from seven days after issue on. -/

/-- Read a number written in unary with `c` and closed by `stop`: the number
and the characters that follow. -/
def readUnary (c stop : Char) (cs : List Char) : Option (Nat × List Char) :=
  match cs.dropWhile (fun x => x == c) with
  | d :: rest => if d = stop then some ((cs.takeWhile (fun x => x == c)).length, rest) else none
  | [] => none

/-- The token of the second environment for a user id, username and issue time. -/
def encodeToken (userId username : String) (iat : Nat) : String :=
  String.mk (List.replicate iat 'i' ++ '#' ::
    (List.replicate userId.length 'x' ++ '|' :: (userId.toList ++ username.toList)))

/-- Issue time, user id and username of a token of the second environment. -/
def decodeToken (t : String) : Option (Nat × String × String) :=
  match readUnary 'i' '#' t.toList with
  | none => none
  | some (iat, r1) =>
    match readUnary 'x' '|' r1 with
    | none => none
    | some (n, r2) => some (iat, String.mk (r2.take n), String.mk (r2.drop n))

/-- The second toy environment: hashing as in `toyEnv`, tokens that expire. -/
def tokenEnv : Env where
  hash := toyEnv.hash
  compare := toyEnv.compare
  sign := encodeToken
  verify := fun t now =>
    match decodeToken t with
    | none => .error .JsonWebTokenError
    | some (iat, userId, username) =>
      if now ≥ iat + sevenDays then .error .TokenExpiredError
      else .ok ⟨userId, username, iat, iat + sevenDays⟩

/-! ## Predicates for atomicity, growth and frames -/

/-- The outcome of a request from store `s`: either a success (status 200,
body not an error) or one of the error responses with the store untouched. -/
def SuccessOrUntouched (s : Store) (r : Store × Response) : Prop :=
  (r.2.status = 200 ∧ ∀ msg, r.2.body ≠ .error msg) ∨ (r.1 = s ∧ r.2 ∈ errorResponses)

/-- The post `new` is `old` grown: same id, author, content, image and
creation time, and the comments of `old` are an initial segment of its own. -/
def PostGrows (old new : Post) : Prop :=
  new.frozen = old.frozen ∧ old.comments <+: new.comments

/-! ## The event loop

Handlers run to completion except at an `await`.  The only handler that writes
after an `await` is the registration: its checks (lines 42-49) run when the
request arrives, and lines 55-79 run in a later turn, once `bcrypt.hash` has
settled.  The login handler also awaits, but writes nothing and afterwards
reads only the record it had found, so it is served in one turn. -/

/-- Lines 52-79: the continuation of a registration once `bcrypt.hash` settles. -/
def registerResume (env : Env) (s : Store) (o : Oracle) (body : RegisterBody) :
    Store × Response :=
  match env.hash (body.password.getD "") o.salt with
  | none => (s, ServerFault)
  | some hashedPassword => registerStore env s o body hashedPassword

/-- The server between two turns of the event loop: the store, the
registrations suspended at `await bcrypt.hash`, and the responses sent so far. -/
structure Server where
  store : Store
  pending : List (Oracle × RegisterBody)
  sent : List Response
deriving DecidableEq, Repr

/-- A turn of the event loop: a request arrives and its handler runs up to its
suspension point or to its end, or the hash awaited by the suspended
registration number `i` settles and its continuation runs. -/
inductive Turn where
  | arrive (o : Oracle) (req : Request)
  | settle (i : Nat)
deriving DecidableEq, Repr

/-- One turn of the event loop. -/
def turn (env : Env) (sv : Server) : Turn → Server
  | .arrive o (.register body) =>
    match registerCheck sv.store body with
    | some r => { sv with sent := sv.sent ++ [r] }
    | none => { sv with pending := sv.pending ++ [(o, body)] }
  | .arrive o req =>
    let r := step env sv.store o req
    { sv with store := r.1, sent := sv.sent ++ [r.2] }
  | .settle i =>
    match sv.pending[i]? with
    | none => sv
    | some (o, body) =>
      let r := registerResume env sv.store o body
      { store := r.1, pending := sv.pending.eraseIdx i, sent := sv.sent ++ [r.2] }

/-- The server after the given turns, from start-up. -/
def runLoop (env : Env) (turns : List Turn) : Server :=
  turns.foldl (turn env) ⟨Store.empty, [], []⟩

/-- Two registrations for the username "ali" that are in flight together: both
arrive before the hash of either settles. -/
def racingRegisters : List Turn :=
  [ .arrive (at_ 1 "u1") (.register ⟨some "ali", none, some "pw123"⟩),
    .arrive (at_ 2 "u2") (.register ⟨some "ali", none, some "other"⟩),
    .settle 0,
    .settle 0 ]

/-! ## Counting like toggles -/

/-- The user id under which the request toggles the like of post `pid`: it is
a like request for `pid` and the middleware lets it through with that id. -/
def likeToggler (env : Env) (pid : String) (x : Oracle × Request) : Option String :=
  match x.2 with
  | .toggleLike a id =>
    if id = pid then
      match authMiddleware env x.1 a with
      | .ok c => some c.userId
      | .error _ => none
    else none
  | _ => none

/-- The user ids of the like toggles of post `pid` in a sequence of requests,
in request order. -/
def likeTogglers (env : Env) (pid : String) (reqs : List (Oracle × Request)) : List String :=
  reqs.filterMap (likeToggler env pid)

/-- The request is not a post creation that draws the id `pid`. -/
def createsOther (pid : String) (x : Oracle × Request) : Bool :=
  match x.2 with
  | .createPost _ _ => x.1.uuid != pid
  | _ => true

/-- The two racing registrations for "ali", then, once both are stored, a
login with the credentials of the second one. -/
def racingThenLogin : List Turn :=
  racingRegisters ++ [.arrive (at_ 5 "") (.login ⟨some "ali", some "other"⟩)]

/-- Two registrations with the same username and the same password that are in
flight together, then a login with these credentials. -/
def racingSameCredentials : List Turn :=
  [ .arrive (at_ 1 "u1") (.register ⟨some "ali", none, some "pw123"⟩),
    .arrive (at_ 2 "u2") (.register ⟨some "ali", none, some "pw123"⟩),
    .settle 0,
    .settle 0,
    .arrive (at_ 3 "") (.login ⟨some "ali", some "pw123"⟩) ]

/-! ## Auxiliary lemmas -/

theorem indexOf_eq_neg_one_iff (xs : List String) (x : String) :
    indexOf xs x = -1 ↔ x ∉ xs := by
  unfold indexOf
  by_cases h : x ∈ xs
  · simp only [h, if_true, not_true_eq_false, iff_false]
    omega
  · simp [h]

theorem splice1_indexOf (xs : List String) (x : String) (h : x ∈ xs) :
    splice1 xs (indexOf xs x) = xs.erase x := by
  unfold splice1 indexOf
  simp [h]

/-- The like list after a toggle, in list terms. -/
theorem toggled_eq (xs : List String) (x : String) :
    (if indexOf xs x = -1 then xs ++ [x] else splice1 xs (indexOf xs x))
      = toggled xs x := by
  unfold toggled
  by_cases h : x ∈ xs
  · have h1 : ¬ indexOf xs x = -1 := by rw [indexOf_eq_neg_one_iff]; simpa using h
    rw [if_neg h1, if_pos h, splice1_indexOf xs x h]
  · have h1 : indexOf xs x = -1 := (indexOf_eq_neg_one_iff xs x).2 h
    rw [if_pos h1, if_neg h]

theorem toggled_nodup (xs : List String) (x : String) (h : xs.Nodup) :
    (if indexOf xs x = -1 then xs ++ [x] else splice1 xs (indexOf xs x)).Nodup := by
  rw [toggled_eq]
  unfold toggled
  split
  · exact h.erase x
  · rename_i hx
    exact List.Nodup.append h (List.nodup_singleton x) (by simpa using hx)

theorem mem_mutateFound (ps : List Post) (id : String) (f : Post → Post) (q : Post)
    (h : q ∈ mutateFound ps id f) :
    q ∈ ps ∨ ∃ p, ps.find? (fun p => p.id == id) = some p ∧ q = f p := by
  induction ps with
  | nil => simp [mutateFound] at h
  | cons p rest ih =>
    unfold mutateFound at h
    by_cases hp : (p.id == id) = true
    · rw [if_pos hp] at h
      rcases List.mem_cons.1 h with h | h
      · exact Or.inr ⟨p, by simp [List.find?, hp], h⟩
      · exact Or.inl (List.mem_cons_of_mem _ h)
    · rw [if_neg hp] at h
      rcases List.mem_cons.1 h with h | h
      · exact Or.inl (h ▸ List.mem_cons_self _ _)
      · rcases ih h with h | ⟨p0, h0, hq⟩
        · exact Or.inl (List.mem_cons_of_mem _ h)
        · refine Or.inr ⟨p0, ?_, hq⟩
          have hp2 : (p.id == id) = false := by simpa using hp
          simp [List.find?, hp2, h0]

theorem guarded_cases (env : Env) (s : Store) (o : Oracle) (a : Option String)
    (handler : Claims → Store × Response) :
    (∃ r, guarded env s o a handler = (s, r)) ∨ ∃ u, guarded env s o a handler = handler u := by
  unfold guarded
  cases authMiddleware env o a with
  | error r => exact Or.inl ⟨r, rfl⟩
  | ok u => exact Or.inr ⟨u, rfl⟩

/-- A property of stores kept by every handler is kept by every request. -/
theorem step_preserves (P : Store → Prop) (env : Env)
    (hreg : ∀ s o b, P s → P (register env s o b).1)
    (hpost : ∀ s o u b, P s → P (createPost s o u b).1)
    (hlike : ∀ s u id, P s → P (toggleLike s u id).1)
    (hcom : ∀ s o u id b, P s → P (addComment s o u id b).1)
    (s : Store) (o : Oracle) (req : Request) (h : P s) : P (step env s o req).1 := by
  cases req with
  | register b => exact hreg s o b h
  | login b =>
    simp only [step, login]
    split
    · exact h
    · split
      · exact h
      · split <;> exact h
  | createPost a b =>
    simp only [step]
    rcases guarded_cases env s o a (fun u => createPost s o u b) with ⟨r, hr⟩ | ⟨u, hu⟩
    · rw [hr]; exact h
    · rw [hu]; exact hpost s o u b h
  | listPosts => exact h
  | toggleLike a id =>
    simp only [step]
    rcases guarded_cases env s o a (fun u => toggleLike s u id) with ⟨r, hr⟩ | ⟨u, hu⟩
    · rw [hr]; exact h
    · rw [hu]; exact hlike s u id h
  | addComment a id b =>
    simp only [step]
    rcases guarded_cases env s o a (fun u => addComment s o u id b) with ⟨r, hr⟩ | ⟨u, hu⟩
    · rw [hr]; exact h
    · rw [hu]; exact hcom s o u id b h
  | health => exact h

/-- A property kept by every request holds after any sequence of requests. -/
theorem serve_preserves (P : Store → Prop) (env : Env)
    (hstep : ∀ s o req, P s → P (step env s o req).1)
    (reqs : List (Oracle × Request)) : ∀ s, P s → P (serve env s reqs).1 := by
  induction reqs with
  | nil => intro s h; exact h
  | cons x rest ih =>
    intro s h
    obtain ⟨o, req⟩ := x
    exact ih _ (hstep s o req h)

theorem register_posts (env : Env) (s : Store) (o : Oracle) (b : RegisterBody) :
    (register env s o b).1.posts = s.posts := by
  unfold register
  split
  · rfl
  · split <;> rfl

theorem createPost_users (s : Store) (o : Oracle) (u : Claims) (b : PostBody) :
    (createPost s o u b).1.users = s.users := by
  unfold createPost
  split <;> rfl

theorem toggleLike_users (s : Store) (u : Claims) (id : String) :
    (toggleLike s u id).1.users = s.users := by
  unfold toggleLike
  split <;> rfl

theorem addComment_users (s : Store) (o : Oracle) (u : Claims) (id : String) (b : CommentBody) :
    (addComment s o u id b).1.users = s.users := by
  unfold addComment
  split
  · rfl
  · split <;> rfl

theorem likesNodup_step (env : Env) (s : Store) (o : Oracle) (req : Request)
    (h : LikesNodup s) : LikesNodup (step env s o req).1 := by
  refine step_preserves LikesNodup env ?_ ?_ ?_ ?_ s o req h
  · intro s o b h
    unfold LikesNodup
    rw [register_posts]
    exact h
  · intro s o u b h
    unfold createPost
    split
    · exact h
    · intro p hp
      rcases List.mem_cons.1 hp with hp | hp
      · subst hp; exact List.nodup_nil
      · exact h p hp
  · intro s u id h
    unfold toggleLike
    split
    · exact h
    · rename_i post hfind
      intro q hq
      rcases mem_mutateFound _ _ _ _ hq with hq | ⟨p0, h0, hq⟩
      · exact h q hq
      · subst hq
        exact toggled_nodup _ _ (h post (List.mem_of_find?_eq_some hfind))
  · intro s o u id b h
    unfold addComment
    split
    · exact h
    · split
      · exact h
      · intro q hq
        rcases mem_mutateFound _ _ _ _ hq with hq | ⟨p0, h0, hq⟩
        · exact h q hq
        · subst hq
          exact h p0 (List.mem_of_find?_eq_some h0)

theorem likesNodup_run (env : Env) (reqs : List (Oracle × Request)) :
    LikesNodup (run env reqs) :=
  serve_preserves LikesNodup env (likesNodup_step env) reqs Store.empty
    (by intro p hp; simp [Store.empty] at hp)

theorem find_mutateFound (ps : List Post) (id : String) (f : Post → Post) (p : Post)
    (hf : ∀ q, (f q).id = q.id) (h : ps.find? (fun p => p.id == id) = some p) :
    (mutateFound ps id f).find? (fun p => p.id == id) = some (f p) := by
  induction ps with
  | nil => simp at h
  | cons q rest ih =>
    unfold mutateFound
    by_cases hq : (q.id == id) = true
    · rw [if_pos hq]
      have hq2 : ((f q).id == id) = true := by rw [hf]; exact hq
      simp only [List.find?, hq] at h
      simp only [List.find?, hq2]
      injection h with h
      rw [h]
    · have hq1 : (q.id == id) = false := by simpa using hq
      rw [if_neg hq]
      simp only [List.find?, hq1] at h ⊢
      exact ih h

theorem find_none_iff (ps : List Post) (id : String) :
    ps.find? (fun p => p.id == id) = none ↔ ∀ p ∈ ps, p.id ≠ id := by
  simp [List.find?_eq_none]

theorem toggled_length_of_mem (l : List String) (u : String) (h : u ∈ l) :
    (toggled l u).length + 1 = l.length := by
  have : 0 < l.length := List.length_pos_of_mem h
  simp only [toggled, if_pos h, List.length_erase_of_mem h]
  omega

theorem toggled_length_of_not_mem (l : List String) (u : String) (h : u ∉ l) :
    (toggled l u).length = l.length + 1 := by
  simp [toggled, h]

theorem mem_toggled_self (l : List String) (u : String) (hnd : l.Nodup) :
    u ∈ toggled l u ↔ u ∉ l := by
  by_cases h : u ∈ l
  · have : u ∉ l.erase u := hnd.not_mem_erase
    simp [toggled, h, this]
  · simp [toggled, h]

theorem toggled_nodup2 (l : List String) (u : String) (hnd : l.Nodup) :
    (toggled l u).Nodup := by
  rw [← toggled_eq]
  exact toggled_nodup l u hnd

theorem toggled_twice (l : List String) (u : String) (hnd : l.Nodup) :
    (toggled (toggled l u) u).length = l.length ∧ (u ∈ toggled (toggled l u) u ↔ u ∈ l) := by
  have hnd2 := toggled_nodup2 l u hnd
  have m1 := mem_toggled_self l u hnd
  have m2 := mem_toggled_self (toggled l u) u hnd2
  constructor
  · by_cases h : u ∈ l
    · have h1 : u ∉ toggled l u := fun hc => (m1.1 hc) h
      have := toggled_length_of_mem l u h
      have := toggled_length_of_not_mem (toggled l u) u h1
      omega
    · have h1 : u ∈ toggled l u := m1.2 h
      have := toggled_length_of_not_mem l u h
      have := toggled_length_of_mem (toggled l u) u h1
      omega
  · rw [m2, m1, not_not]

/-- The effect of the like handler on an existing post, in list terms. -/
theorem toggleLike_found (s : Store) (user : Claims) (id : String) (post : Post)
    (h : s.posts.find? (fun p => p.id == id) = some post) :
    toggleLike s user id =
      ({ s with posts := mutateFound s.posts id (fun p =>
          { p with likes := toggled post.likes user.userId }) },
        .json (.likes (toggled post.likes user.userId).length)) := by
  unfold toggleLike
  rw [h]
  simp only [toggled_eq]

theorem toggleLike_find (s : Store) (user : Claims) (id : String) (post : Post)
    (h : s.posts.find? (fun p => p.id == id) = some post) :
    (toggleLike s user id).1.posts.find? (fun p => p.id == id) =
      some { post with likes := toggled post.likes user.userId } := by
  rw [toggleLike_found s user id post h]
  exact find_mutateFound s.posts id _ post (fun _ => rfl) h

theorem registerCheck_none (s : Store) (b : RegisterBody) (h : registerCheck s b = none) :
    ∃ n, b.username = some n ∧ n ≠ "" ∧ truthy b.password = true ∧
      ∀ u ∈ s.users, u.username ≠ n := by
  unfold registerCheck at h
  cases hb : b.username with
  | none => simp [hb, truthy] at h
  | some n =>
    rw [hb] at h
    by_cases hn : n = ""
    · simp [hn, truthy] at h
    · by_cases hp : truthy b.password = true
      · refine ⟨n, rfl, hn, hp, ?_⟩
        intro u hu heq
        have ht : truthy (some n) = true := by simp [truthy, hn]
        have hs : ∃ x ∈ s.users, x.username = n := ⟨u, hu, heq⟩
        simp [hs, ht, hp] at h
      · simp [hp] at h

theorem usernamesUnique_step (env : Env) (s : Store) (o : Oracle) (req : Request)
    (h : UsernamesUnique s) : UsernamesUnique (step env s o req).1 := by
  refine step_preserves UsernamesUnique env ?_ ?_ ?_ ?_ s o req h
  · intro s o b h
    unfold register
    cases hc : registerCheck s b with
    | some r => exact h
    | none =>
      simp only
      cases env.hash (b.password.getD "") o.salt with
      | none => exact h
      | some hp =>
        obtain ⟨n, hn, _, _, hfresh⟩ := registerCheck_none s b hc
        simp only [registerStore, UsernamesUnique]
        rw [List.pairwise_append]
        refine ⟨h, List.pairwise_singleton _ _, ?_⟩
        intro a ha c hcm
        rw [List.mem_singleton] at hcm
        subst hcm
        simpa [hn] using hfresh a ha
  · intro s o u b h
    unfold UsernamesUnique
    rw [createPost_users]
    exact h
  · intro s u id h
    unfold UsernamesUnique
    rw [toggleLike_users]
    exact h
  · intro s o u id b h
    unfold UsernamesUnique
    rw [addComment_users]
    exact h

theorem register_users (env : Env) (s : Store) (o : Oracle) (b : RegisterBody) :
    ∃ extra, (register env s o b).1.users = s.users ++ extra := by
  unfold register
  split
  · exact ⟨[], by simp⟩
  · split
    · exact ⟨[], by simp⟩
    · exact ⟨_, rfl⟩

/-- The user records present before a sequence of requests are an initial
segment of those present after it. -/
theorem serve_users (env : Env) (s0 : Store) (reqs : List (Oracle × Request)) :
    ∃ extra, (serve env s0 reqs).1.users = s0.users ++ extra := by
  refine serve_preserves (fun s => ∃ extra, s.users = s0.users ++ extra) env ?_ reqs s0
    ⟨[], by simp⟩
  intro s o req h
  refine step_preserves (fun s => ∃ extra, s.users = s0.users ++ extra) env
    ?_ ?_ ?_ ?_ s o req h
  · intro s o b ⟨e, he⟩
    obtain ⟨e2, he2⟩ := register_users env s o b
    exact ⟨e ++ e2, by rw [he2, he, List.append_assoc]⟩
  · intro s o u b h
    simpa only [createPost_users] using h
  · intro s u id h
    simpa only [toggleLike_users] using h
  · intro s o u id b h
    simpa only [addComment_users] using h

/-- A successful registration: what the checks established and what was stored. -/
theorem register_success (env : Env) (s : Store) (o : Oracle) (b : RegisterBody)
    (tok : String) (view : UserView)
    (h : (register env s o b).2 = .json (.session tok view)) :
    ∃ n hashed, b.username = some n ∧ env.hash (b.password.getD "") o.salt = some hashed ∧
      (∀ u ∈ s.users, u.username ≠ n) ∧
      (register env s o b).1.users = s.users ++ [⟨o.uuid, n, b.email, hashed, o.now⟩] ∧
      view = ⟨o.uuid, n, b.email⟩ := by
  unfold register at h ⊢
  cases hc : registerCheck s b with
  | some r =>
    rw [hc] at h
    simp only at h
    unfold registerCheck at hc
    split at hc
    · injection hc with hc
      rw [← hc] at h
      simp [RegisterValidationError, Response.json] at h
    · split at hc
      · injection hc with hc
        rw [← hc] at h
        simp [DuplicateUsernameError, Response.json] at h
      · simp at hc
  | none =>
    rw [hc] at h
    simp only at h ⊢
    obtain ⟨n, hn, _, _, hfresh⟩ := registerCheck_none s b hc
    cases hh : env.hash (b.password.getD "") o.salt with
    | none =>
      rw [hh] at h
      simp [ServerFault, Response.json] at h
    | some hashed =>
      rw [hh] at h
      simp only [registerStore, sessionResponse, Response.json, hn, Option.getD_some] at h ⊢
      injection h with _ h
      injection h with _ h
      exact ⟨n, hashed, rfl, rfl, hfresh, rfl, h.symm⟩

theorem find_user_append (l extra : List User) (x : User) (n : String)
    (hfresh : ∀ u ∈ l, u.username ≠ n) (hx : x.username = n) :
    ((l ++ [x]) ++ extra).find? (fun u => some u.username == some n) = some x := by
  rw [List.append_assoc, List.find?_append]
  have h1 : l.find? (fun u => some u.username == some n) = none := by
    rw [List.find?_eq_none]
    intro u hu
    simpa using hfresh u hu
  rw [h1]
  simp [List.find?, hx]

theorem mutateFound_map_frozen (ps : List Post) (id : String) (f : Post → Post)
    (hf : ∀ q, (f q).frozen = q.frozen) :
    (mutateFound ps id f).map Post.frozen = ps.map Post.frozen := by
  induction ps with
  | nil => rfl
  | cons p rest ih =>
    unfold mutateFound
    split
    · simp [hf]
    · simp [ih]

theorem authMiddleware_cases (env : Env) (o : Oracle) (a : Option String) :
    authMiddleware env o a = .error MissingTokenError ∨
    authMiddleware env o a = .error InvalidTokenError ∨
    ∃ u, authMiddleware env o a = .ok u := by
  unfold authMiddleware
  simp only
  split
  · exact Or.inl rfl
  · split
    · exact Or.inr (Or.inr ⟨_, rfl⟩)
    · exact Or.inr (Or.inl rfl)

theorem guarded_cases2 (env : Env) (s : Store) (o : Oracle) (a : Option String)
    (handler : Claims → Store × Response) :
    guarded env s o a handler = (s, MissingTokenError) ∨
    guarded env s o a handler = (s, InvalidTokenError) ∨
    ∃ u, guarded env s o a handler = handler u := by
  unfold guarded
  rcases authMiddleware_cases env o a with h | h | ⟨u, h⟩
  · rw [h]; exact Or.inl rfl
  · rw [h]; exact Or.inr (Or.inl rfl)
  · rw [h]; exact Or.inr (Or.inr ⟨u, rfl⟩)

theorem createdPosts_cons (r : Response) (rs : List Response) :
    createdPosts (r :: rs) = createdPosts [r] ++ createdPosts rs := by
  obtain ⟨st, b⟩ := r
  cases b <;> simp [createdPosts]

theorem returnedComments_cons (r : Response) (rs : List Response) :
    returnedComments (r :: rs) = returnedComments [r] ++ returnedComments rs := by
  obtain ⟨st, b⟩ := r
  cases b <;> simp [returnedComments]

theorem createPost_frozen (s : Store) (o : Oracle) (u : Claims) (b : PostBody) :
    (createPost s o u b).1.posts.map Post.frozen
      = createdPosts [(createPost s o u b).2] ++ s.posts.map Post.frozen := by
  unfold createPost
  split
  · simp [createdPosts, PostValidationError]
  · simp [createdPosts, Response.json, Post.frozen]

theorem toggleLike_frozen (s : Store) (u : Claims) (id : String) :
    (toggleLike s u id).1.posts.map Post.frozen
      = createdPosts [(toggleLike s u id).2] ++ s.posts.map Post.frozen := by
  unfold toggleLike
  split
  · simp [createdPosts, NotFoundError]
  · simp only [createdPosts, Response.json, List.nil_append]
    exact mutateFound_map_frozen _ _ _ (fun _ => rfl)

theorem addComment_frozen (s : Store) (o : Oracle) (u : Claims) (id : String)
    (b : CommentBody) :
    (addComment s o u id b).1.posts.map Post.frozen
      = createdPosts [(addComment s o u id b).2] ++ s.posts.map Post.frozen := by
  unfold addComment
  split
  · simp [createdPosts, CommentValidationError]
  · split
    · simp [createdPosts, NotFoundError]
    · simp only [createdPosts, Response.json, List.nil_append]
      exact mutateFound_map_frozen _ _ _ (fun _ => rfl)

theorem step_frozen (env : Env) (s : Store) (o : Oracle) (req : Request) :
    (step env s o req).1.posts.map Post.frozen
      = createdPosts [(step env s o req).2] ++ s.posts.map Post.frozen := by
  cases req with
  | register b =>
    simp only [step]
    rw [register_posts]
    unfold register
    split
    · rename_i r hc
      unfold registerCheck at hc
      split at hc
      · injection hc with hc
        simp [← hc, createdPosts, RegisterValidationError]
      · split at hc
        · injection hc with hc
          simp [← hc, createdPosts, DuplicateUsernameError]
        · simp at hc
    · split
      · simp [createdPosts, ServerFault]
      · simp [createdPosts, registerStore, sessionResponse, Response.json]
  | login b =>
    simp only [step, login]
    split
    · simp [createdPosts, InvalidCredentialsError]
    · split
      · simp [createdPosts, ServerFault]
      · split
        · simp [createdPosts, InvalidCredentialsError]
        · simp [createdPosts, sessionResponse, Response.json]
  | createPost a b =>
    simp only [step]
    rcases guarded_cases2 env s o a (fun u => createPost s o u b) with h | h | ⟨u, h⟩
    · rw [h]; simp [createdPosts, MissingTokenError]
    · rw [h]; simp [createdPosts, InvalidTokenError]
    · rw [h]; exact createPost_frozen s o u b
  | listPosts => simp [step, listPosts, createdPosts, Response.json]
  | toggleLike a id =>
    simp only [step]
    rcases guarded_cases2 env s o a (fun u => toggleLike s u id) with h | h | ⟨u, h⟩
    · rw [h]; simp [createdPosts, MissingTokenError]
    · rw [h]; simp [createdPosts, InvalidTokenError]
    · rw [h]; exact toggleLike_frozen s u id
  | addComment a id b =>
    simp only [step]
    rcases guarded_cases2 env s o a (fun u => addComment s o u id b) with h | h | ⟨u, h⟩
    · rw [h]; simp [createdPosts, MissingTokenError]
    · rw [h]; simp [createdPosts, InvalidTokenError]
    · rw [h]; exact addComment_frozen s o u id b
  | health => simp [step, health, createdPosts, Response.json]

theorem createdPosts_single_reverse (r : Response) :
    (createdPosts [r]).reverse = createdPosts [r] := by
  obtain ⟨st, b⟩ := r
  cases b <;> simp [createdPosts]

theorem createdPosts_append (xs ys : List Response) :
    createdPosts (xs ++ ys) = createdPosts xs ++ createdPosts ys := by
  induction xs with
  | nil => rfl
  | cons r rest ih =>
    rw [List.cons_append, createdPosts_cons, ih, createdPosts_cons r rest, List.append_assoc]

/-- The feed after a sequence of requests, likes and comments set aside: the
posts the sequence created, newest first, in front of the feed it started from. -/
theorem serve_frozen (env : Env) (reqs : List (Oracle × Request)) : ∀ s,
    (serve env s reqs).1.posts.map Post.frozen
      = (createdPosts (serve env s reqs).2).reverse ++ s.posts.map Post.frozen := by
  induction reqs with
  | nil => intro s; simp [serve, createdPosts]
  | cons x rest ih =>
    intro s
    obtain ⟨o, req⟩ := x
    simp only [serve]
    have hc := createdPosts_cons (step env s o req).2 (serve env (step env s o req).1 rest).2
    rw [ih, step_frozen, hc, List.reverse_append, List.append_assoc,
      createdPosts_single_reverse]

theorem createPost_success (s : Store) (o : Oracle) (u : Claims) (b : PostBody) (p : Post)
    (h : (createPost s o u b).2 = .json (.post p)) :
    (createPost s o u b).1.posts = p :: s.posts := by
  unfold createPost at h ⊢
  split
  · rename_i hc
    rw [if_pos hc] at h
    simp [PostValidationError, Response.json] at h
  · rename_i hc
    rw [if_neg hc] at h
    simp only [Response.json] at h
    injection h with _ h
    injection h with h
    simp [h]

/-- The effect of the comment handler on the post it finds. -/
theorem addComment_find (s : Store) (o : Oracle) (u : Claims) (id : String) (b : CommentBody)
    (post : Post) (h : s.posts.find? (fun p => p.id == id) = some post) :
    (addComment s o u id b).1.posts.find? (fun p => p.id == id)
      = some { post with
          comments := post.comments ++ returnedComments [(addComment s o u id b).2] } := by
  unfold addComment
  split
  · simp [returnedComments, CommentValidationError, h]
  · rw [h]
    simp only [returnedComments, Response.json]
    exact find_mutateFound s.posts id _ post (fun _ => rfl) h

theorem addComment_success (s : Store) (o : Oracle) (u : Claims) (id : String)
    (b : CommentBody) (c : Comment) (h : (addComment s o u id b).2 = .json (.comment c)) :
    ∃ post, s.posts.find? (fun p => p.id == id) = some post ∧
      (addComment s o u id b).1.posts.find? (fun p => p.id == id)
        = some { post with comments := post.comments ++ [c] } := by
  cases hf : s.posts.find? (fun p => p.id == id) with
  | none =>
    unfold addComment at h
    rw [hf] at h
    split at h <;> simp [CommentValidationError, NotFoundError, Response.json] at h
  | some post =>
    refine ⟨post, rfl, ?_⟩
    rw [addComment_find s o u id b post hf, h]
    rfl

theorem step_comment_find (env : Env) (s : Store) (o : Oracle) (req : Request) (id : String)
    (post : Post) (hreq : commentsOn id req = true)
    (h : s.posts.find? (fun p => p.id == id) = some post) :
    (step env s o req).1.posts.find? (fun p => p.id == id)
      = some { post with
          comments := post.comments ++ returnedComments [(step env s o req).2] } := by
  cases req with
  | addComment a id2 b =>
    have hid : id2 = id := by simpa [commentsOn] using hreq
    subst hid
    simp only [step]
    rcases guarded_cases2 env s o a (fun u => addComment s o u id2 b) with hg | hg | ⟨u, hg⟩
    · rw [hg]; simp [returnedComments, MissingTokenError, h]
    · rw [hg]; simp [returnedComments, InvalidTokenError, h]
    · rw [hg]; exact addComment_find s o u id2 b post h
  | register b => simp [commentsOn] at hreq
  | login b => simp [commentsOn] at hreq
  | createPost a b => simp [commentsOn] at hreq
  | listPosts => simp [commentsOn] at hreq
  | toggleLike a i => simp [commentsOn] at hreq
  | health => simp [commentsOn] at hreq

/-- After a sequence of comment requests for one post, the comments of that
post are the old ones followed by the returned ones, in request order. -/
theorem serve_comments (env : Env) (id : String) (reqs : List (Oracle × Request)) :
    ∀ (s : Store) (post : Post), (∀ x ∈ reqs, commentsOn id x.2 = true) →
      s.posts.find? (fun p => p.id == id) = some post →
      (serve env s reqs).1.posts.find? (fun p => p.id == id)
        = some { post with
            comments := post.comments ++ returnedComments (serve env s reqs).2 } := by
  induction reqs with
  | nil =>
    intro s post _ h
    simp [serve, returnedComments, h]
  | cons x rest ih =>
    intro s post hall h
    obtain ⟨o, req⟩ := x
    have h1 := step_comment_find env s o req id post
      (hall (o, req) (List.mem_cons_self _ _)) h
    have h2 := ih _ _ (fun y hy => hall y (List.mem_cons_of_mem _ hy)) h1
    have hc := returnedComments_cons (step env s o req).2 (serve env (step env s o req).1 rest).2
    simp only [serve]
    rw [h2, hc]
    simp only [List.append_assoc]

/-! ## The claims -/

/-- C1 (invariant I2): after any sequence of requests served from the empty
store, every post's like list holds each user id at most once. -/
theorem C1_likes_at_most_once (env : Env) (reqs : List (Oracle × Request)) (p : Post)
    (hp : p ∈ (run env reqs).posts) (u : String) : p.likes.count u ≤ 1 :=
  List.nodup_iff_count_le_one.1 (likesNodup_run env reqs p hp) u

theorem C1_likes_at_most_once_witness :
    scenarioPost ∈ (run toyEnv scenario).posts ∧ scenarioPost.likes.count "u1" ≤ 1 :=
  ⟨by decide, C1_likes_at_most_once toyEnv scenario scenarioPost (by decide) "u1"⟩

/-- C2: on a reachable store and an existing post id, two like toggles in a row
by the same user id make the second call answer the like count the post had
before the first, and leave that user's membership in the like list as it was. -/
theorem C2_toggle_twice (env : Env) (reqs : List (Oracle × Request)) (c1 c2 : Claims)
    (id : String) (post : Post) (hu : c2.userId = c1.userId)
    (hfind : (run env reqs).posts.find? (fun p => p.id == id) = some post) :
    ∃ post2,
      (toggleLike (toggleLike (run env reqs) c1 id).1 c2 id).1.posts.find?
          (fun p => p.id == id) = some post2 ∧
      (toggleLike (toggleLike (run env reqs) c1 id).1 c2 id).2
          = .json (.likes post.likes.length) ∧
      post2.likes.length = post.likes.length ∧
      (c1.userId ∈ post2.likes ↔ c1.userId ∈ post.likes) := by
  have hnd : post.likes.Nodup :=
    likesNodup_run env reqs post (List.mem_of_find?_eq_some hfind)
  have h1 := toggleLike_find (run env reqs) c1 id post hfind
  have h2 := toggleLike_find _ c2 id _ h1
  have h3 := toggleLike_found _ c2 id _ h1
  obtain ⟨hlen, hmem⟩ := toggled_twice post.likes c1.userId hnd
  refine ⟨_, h2, ?_, ?_, ?_⟩
  · rw [h3, hu]
    simp only [hlen]
  · rw [hu]
    exact hlen
  · rw [hu]
    exact hmem

theorem C2_toggle_twice_witness :
    (claimsOf "u1").userId = (claimsOf "u1").userId ∧
    (run toyEnv scenario).posts.find? (fun p => p.id == "p1") = some scenarioPost ∧
    ∃ post2,
      (toggleLike (toggleLike (run toyEnv scenario) (claimsOf "u1") "p1").1
          (claimsOf "u1") "p1").1.posts.find? (fun p => p.id == "p1") = some post2 ∧
      (toggleLike (toggleLike (run toyEnv scenario) (claimsOf "u1") "p1").1
          (claimsOf "u1") "p1").2 = .json (.likes scenarioPost.likes.length) ∧
      post2.likes.length = scenarioPost.likes.length ∧
      ((claimsOf "u1").userId ∈ post2.likes ↔ (claimsOf "u1").userId ∈ scenarioPost.likes) :=
  ⟨rfl, by decide,
    C2_toggle_twice toyEnv scenario (claimsOf "u1") (claimsOf "u1") "p1" scenarioPost rfl
      (by decide)⟩

/-- C3: the like handler answers NotFoundError exactly when no post has the
given id; otherwise, on a reachable store, a user id present in the found
post's like list is removed and the answer is the old size minus one, an
absent one is inserted and the answer is the old size plus one, and in both
cases the answer is the size of the like list after the call. -/
theorem C3_toggleLike_result (env : Env) (reqs : List (Oracle × Request)) (user : Claims)
    (id : String) :
    ((toggleLike (run env reqs) user id).2 = NotFoundError ↔
        ∀ p ∈ (run env reqs).posts, p.id ≠ id) ∧
    ∀ post, (run env reqs).posts.find? (fun p => p.id == id) = some post →
      ∃ post2,
        (toggleLike (run env reqs) user id).1.posts.find? (fun p => p.id == id) = some post2 ∧
        (user.userId ∈ post.likes →
          post2.likes = post.likes.erase user.userId ∧ user.userId ∉ post2.likes ∧
          ∃ n, n + 1 = post.likes.length ∧
            (toggleLike (run env reqs) user id).2 = .json (.likes n)) ∧
        (user.userId ∉ post.likes →
          post2.likes = post.likes ++ [user.userId] ∧ user.userId ∈ post2.likes ∧
          (toggleLike (run env reqs) user id).2 = .json (.likes (post.likes.length + 1))) ∧
        (toggleLike (run env reqs) user id).2 = .json (.likes post2.likes.length) := by
  constructor
  · rw [← find_none_iff]
    constructor
    · intro h
      cases hf : (run env reqs).posts.find? (fun p => p.id == id) with
      | none => rfl
      | some post =>
        rw [toggleLike_found _ user id post hf] at h
        simp [Response.json, NotFoundError] at h
    · intro h
      unfold toggleLike
      rw [h]
  · intro post hfind
    have hnd : post.likes.Nodup :=
      likesNodup_run env reqs post (List.mem_of_find?_eq_some hfind)
    refine ⟨_, toggleLike_find _ user id post hfind, ?_, ?_, ?_⟩
    · intro hm
      refine ⟨by simp [toggled, hm], ?_, (toggled post.likes user.userId).length,
        toggled_length_of_mem _ _ hm, ?_⟩
      · intro hc
        exact (mem_toggled_self _ _ hnd).1 hc hm
      · rw [toggleLike_found _ user id post hfind]
    · intro hm
      refine ⟨by simp [toggled, hm], (mem_toggled_self _ _ hnd).2 hm, ?_⟩
      rw [toggleLike_found _ user id post hfind, toggled_length_of_not_mem _ _ hm]
    · rw [toggleLike_found _ user id post hfind]

theorem C3_toggleLike_result_witness :
    (run toyEnv scenario).posts.find? (fun p => p.id == "p1") = some scenarioPost ∧
    (claimsOf "u2").userId ∈ scenarioPost.likes ∧
    ∃ post2,
      (toggleLike (run toyEnv scenario) (claimsOf "u2") "p1").1.posts.find?
          (fun p => p.id == "p1") = some post2 ∧
      post2.likes = scenarioPost.likes.erase (claimsOf "u2").userId ∧
      (claimsOf "u2").userId ∉ post2.likes ∧
      (∃ n, n + 1 = scenarioPost.likes.length ∧
        (toggleLike (run toyEnv scenario) (claimsOf "u2") "p1").2 = .json (.likes n)) ∧
      (toggleLike (run toyEnv scenario) (claimsOf "u2") "p1").2
        = .json (.likes post2.likes.length) :=
  match (C3_toggleLike_result toyEnv scenario (claimsOf "u2") "p1").2 scenarioPost
      (by decide) with
  | ⟨post2, h1, h2, _, h4⟩ =>
    ⟨by decide, by decide, post2, h1, (h2 (by decide)).1, (h2 (by decide)).2.1,
      (h2 (by decide)).2.2, h4⟩

/-- C4 (invariant I1): after any sequence of requests, each served to
completion from the empty store, no two user records have the same username. -/
theorem C4_usernames_unique (env : Env) (reqs : List (Oracle × Request)) :
    (run env reqs).users.Pairwise (fun a b => a.username ≠ b.username) :=
  serve_preserves UsernamesUnique env (usernamesUnique_step env) reqs Store.empty
    List.Pairwise.nil

/-- C5, as stated, fails: with the username "ali" taken, a registration for
"ali" with no password is answered with the validation error of line 44, which
is not the duplicate-username error. -/
theorem C5_counterexample :
    (∃ u ∈ (run toyEnv scenario).users, u.username = "ali") ∧
    (register toyEnv (run toyEnv scenario) (at_ 5 "u5") ⟨some "ali", some "a@b.c", none⟩).2
      = RegisterValidationError ∧
    (register toyEnv (run toyEnv scenario) (at_ 5 "u5") ⟨some "ali", some "a@b.c", none⟩).2
      ≠ DuplicateUsernameError := by
  decide

/-- C5, amended: when some user already has the non-empty username `n`, a
registration for `n` with a non-empty password is answered with
DuplicateUsernameError whatever the password and email are, one with an empty
or absent password is answered with the validation error, and in both cases
the store is unchanged. -/
theorem C5_duplicate_username (env : Env) (s : Store) (o : Oracle) (n : String)
    (email password : Option String) (hn : n ≠ "") (hu : ∃ u ∈ s.users, u.username = n) :
    (truthy password = true →
      register env s o ⟨some n, email, password⟩ = (s, DuplicateUsernameError)) ∧
    (truthy password = false →
      register env s o ⟨some n, email, password⟩ = (s, RegisterValidationError)) := by
  have ht : truthy (some n) = true := by simp [truthy, hn]
  constructor
  · intro hp
    simp [register, registerCheck, ht, hp, hu]
  · intro hp
    simp [register, registerCheck, ht, hp]

theorem C5_duplicate_username_witness :
    "ali" ≠ "" ∧ (∃ u ∈ (run toyEnv scenario).users, u.username = "ali") ∧
    truthy (some "other") = true ∧
    register toyEnv (run toyEnv scenario) (at_ 5 "u5") ⟨some "ali", none, some "other"⟩
      = (run toyEnv scenario, DuplicateUsernameError) :=
  ⟨by decide, by decide, by decide,
    (C5_duplicate_username toyEnv (run toyEnv scenario) (at_ 5 "u5") "ali" none (some "other")
      (by decide) (by decide)).1 (by decide)⟩

/-- Registration run to completion, then login: if the hashing primitive
accepts a password against its own hashes and the registration handler runs
from its check to its push with no other request in between, then once it has
succeeded and returned a user with id `i`, a login with the same username and
password made after any further sequence of requests succeeds and returns the
same user (same id, username and email). -/
theorem register_then_login_sequential (env : Env) (hs : HashSound env) (s : Store) (o : Oracle)
    (username password : String) (email : Option String) (tok : String) (view : UserView)
    (hreg : (register env s o ⟨some username, email, some password⟩).2
      = .json (.session tok view))
    (between : List (Oracle × Request)) (o2 : Oracle) :
    ∃ tok2,
      (login env (serve env (register env s o ⟨some username, email, some password⟩).1
          between).1 o2 ⟨some username, some password⟩).2
        = .json (.session tok2 view) ∧
      view.id = o.uuid := by
  obtain ⟨n, hashed, hn, hh, hfresh, husers, hview⟩ :=
    register_success env s o _ tok view hreg
  simp only at hn hh
  injection hn with hn
  subst hn
  obtain ⟨extra, hextra⟩ :=
    serve_users env (register env s o ⟨some username, email, some password⟩).1 between
  rw [husers] at hextra
  have hfind := find_user_append s.users extra ⟨o.uuid, username, email, hashed, o.now⟩
    username hfresh rfl
  rw [← hextra] at hfind
  refine ⟨env.sign o.uuid username o2.now, ?_, by rw [hview]⟩
  unfold login
  simp only [hfind]
  rw [hs password o.salt hashed (by simpa using hh)]
  simp [sessionResponse, hview]

theorem register_then_login_sequential_example :
    HashSound toyEnv ∧
    (register toyEnv (run toyEnv scenario) (at_ 5 "u5") ⟨some "bob", none, some "s3cret"⟩).2
      = .json (.session "u5" ⟨"u5", "bob", none⟩) ∧
    ∃ tok2,
      (login toyEnv (serve toyEnv
          (register toyEnv (run toyEnv scenario) (at_ 5 "u5")
            ⟨some "bob", none, some "s3cret"⟩).1
          [(at_ 6 "u6", .register ⟨some "eve", none, some "x"⟩),
           (at_ 7 "", .toggleLike (some "Bearer u5") "p1")]).1 (at_ 8 "")
          ⟨some "bob", some "s3cret"⟩).2
        = .json (.session tok2 ⟨"u5", "bob", none⟩) ∧
      (⟨"u5", "bob", none⟩ : UserView).id = (at_ 5 "u5").uuid :=
  ⟨by intro p salt h hh; simp only [toyEnv] at hh ⊢; injection hh with hh; simp [hh],
    by decide,
    register_then_login_sequential toyEnv
      (by intro p salt h hh; simp only [toyEnv] at hh ⊢; injection hh with hh; simp [hh])
      (run toyEnv scenario) (at_ 5 "u5") "bob" "s3cret" none "u5" ⟨"u5", "bob", none⟩
      (by decide)
      [(at_ 6 "u6", .register ⟨some "eve", none, some "x"⟩),
       (at_ 7 "", .toggleLike (some "Bearer u5") "p1")] (at_ 8 "")⟩

/-- C7, evaluated on the code: with "ali" registered and "bob" unknown, a
login without a password is answered with the server fault of line 117 (status
500) for "ali", because `bcrypt.compare` rejects the absent password, and with
InvalidCredentialsError (status 400) for "bob", for whom line 92 answers before
any comparison.  The two failed logins differ in status and message, so the
response tells an existing username from an unknown one. -/
theorem C7_absent_password_reveals_username :
    (∃ u ∈ (run toyEnv scenario).users, u.username = "ali") ∧
    (∀ u ∈ (run toyEnv scenario).users, u.username ≠ "bob") ∧
    login toyEnv (run toyEnv scenario) (at_ 5 "") ⟨some "ali", none⟩
      = (run toyEnv scenario, ServerFault) ∧
    login toyEnv (run toyEnv scenario) (at_ 5 "") ⟨some "bob", none⟩
      = (run toyEnv scenario, InvalidCredentialsError) ∧
    ServerFault.status = 500 ∧ InvalidCredentialsError.status = 400 ∧
    ServerFault ≠ InvalidCredentialsError := by
  decide

/-- The outcomes of the login handler: a login for a username that no user
has is answered with InvalidCredentialsError; for an existing username, a
comparison that returns false is answered with the same
InvalidCredentialsError, a comparison that rejects with the server fault, and a
comparison that returns true with a session for the record found.  Whenever
the comparison does not reject, a login that does not succeed is answered with
InvalidCredentialsError.  The store is unchanged in all cases. -/
theorem login_outcomes (env : Env) (s : Store) (o : Oracle) (body : LoginBody) :
    (s.users.find? (fun u => some u.username == body.username) = none →
      login env s o body = (s, InvalidCredentialsError)) ∧
    (∀ user, s.users.find? (fun u => some u.username == body.username) = some user →
      env.compare body.password user.password = some false →
      login env s o body = (s, InvalidCredentialsError)) ∧
    (∀ user, s.users.find? (fun u => some u.username == body.username) = some user →
      env.compare body.password user.password = none →
      login env s o body = (s, ServerFault)) ∧
    (∀ user, s.users.find? (fun u => some u.username == body.username) = some user →
      env.compare body.password user.password = some true →
      login env s o body = (s, sessionResponse env o user)) ∧
    ((∀ user, s.users.find? (fun u => some u.username == body.username) = some user →
        env.compare body.password user.password ≠ none) →
      (login env s o body).2.status ≠ 200 →
      login env s o body = (s, InvalidCredentialsError)) := by
  refine ⟨?_, ?_, ?_, ?_, ?_⟩
  · intro h
    simp [login, h]
  · intro user h hc
    simp [login, h, hc]
  · intro user h hc
    simp [login, h, hc]
  · intro user h hc
    simp [login, h, hc]
  · intro hok hfail
    unfold login at hfail ⊢
    cases hf : s.users.find? (fun u => some u.username == body.username) with
    | none => rfl
    | some user =>
      rw [hf] at hfail
      simp only at hfail ⊢
      cases hc : env.compare body.password user.password with
      | none => exact absurd hc (hok user hf)
      | some v =>
        rw [hc] at hfail
        cases v with
        | false => simp
        | true => simp [sessionResponse, Response.json] at hfail

theorem login_outcomes_example :
    (run toyEnv scenario).users.find? (fun u => some u.username == some "ali") = some ali ∧
    toyEnv.compare (some "wrong") ali.password = some false ∧
    login toyEnv (run toyEnv scenario) (at_ 5 "") ⟨some "ali", some "wrong"⟩
      = (run toyEnv scenario, InvalidCredentialsError) ∧
    (run toyEnv scenario).users.find? (fun u => some u.username == some "bob") = none ∧
    login toyEnv (run toyEnv scenario) (at_ 5 "") ⟨some "bob", some "wrong"⟩
      = (run toyEnv scenario, InvalidCredentialsError) :=
  ⟨by decide, by decide,
    (login_outcomes toyEnv (run toyEnv scenario) (at_ 5 "")
      ⟨some "ali", some "wrong"⟩).2.1 ali (by decide) (by decide),
    by decide,
    (login_outcomes toyEnv (run toyEnv scenario) (at_ 5 "")
      ⟨some "bob", some "wrong"⟩).1 (by decide)⟩

/-- C8 (invariant I4): a successful post creation turns the feed `f` into
`newPost :: f`; after any sequence of requests from the empty store the feed
that the list route returns is, likes and comments set aside, the list of the
posts the successful creations returned, newest first; and creating P1 then P2
from the empty store makes the list route return exactly `[P2, P1]`. -/
theorem C8_newest_first (env : Env) :
    (∀ s o u b p, (createPost s o u b).2 = .json (.post p) →
      (createPost s o u b).1.posts = p :: s.posts) ∧
    (∀ reqs, ∃ ps, (listPosts (run env reqs)).2 = .json (.posts ps) ∧
      ps.map Post.frozen = (createdPosts (serve env Store.empty reqs).2).reverse) ∧
    (∀ o1 u1 b1 p1 o2 u2 b2 p2,
      (createPost Store.empty o1 u1 b1).2 = .json (.post p1) →
      (createPost (createPost Store.empty o1 u1 b1).1 o2 u2 b2).2 = .json (.post p2) →
      (listPosts (createPost (createPost Store.empty o1 u1 b1).1 o2 u2 b2).1).2
        = .json (.posts [p2, p1])) := by
  refine ⟨createPost_success, ?_, ?_⟩
  · intro reqs
    refine ⟨(run env reqs).posts, rfl, ?_⟩
    have h := serve_frozen env reqs Store.empty
    simpa [Store.empty, run] using h
  · intro o1 u1 b1 p1 o2 u2 b2 p2 h1 h2
    have e1 := createPost_success _ o1 u1 b1 p1 h1
    have e2 := createPost_success _ o2 u2 b2 p2 h2
    simp only [listPosts]
    rw [e2, e1]
    rfl

theorem C8_newest_first_witness :
    (createPost Store.empty (at_ 1 "p1") (claimsOf "u1") ⟨some "first", none⟩).2
      = .json (.post ⟨"p1", "u1", "u1", some "first", none, [], [], 1⟩) ∧
    (createPost (createPost Store.empty (at_ 1 "p1") (claimsOf "u1") ⟨some "first", none⟩).1
        (at_ 2 "p2") (claimsOf "u2") ⟨none, some "pic"⟩).2
      = .json (.post ⟨"p2", "u2", "u2", none, some "pic", [], [], 2⟩) ∧
    (listPosts (createPost
        (createPost Store.empty (at_ 1 "p1") (claimsOf "u1") ⟨some "first", none⟩).1
        (at_ 2 "p2") (claimsOf "u2") ⟨none, some "pic"⟩).1).2
      = .json (.posts [⟨"p2", "u2", "u2", none, some "pic", [], [], 2⟩,
          ⟨"p1", "u1", "u1", some "first", none, [], [], 1⟩]) :=
  ⟨by decide, by decide,
    (C8_newest_first toyEnv).2.2 (at_ 1 "p1") (claimsOf "u1") ⟨some "first", none⟩
      ⟨"p1", "u1", "u1", some "first", none, [], [], 1⟩
      (at_ 2 "p2") (claimsOf "u2") ⟨none, some "pic"⟩
      ⟨"p2", "u2", "u2", none, some "pic", [], [], 2⟩ (by decide) (by decide)⟩

/-- C9 (invariant I3): a successful comment on a post whose comments are `cs`
leaves them as `cs ++ [c]`, `c` being the returned comment; commenting C1 then
C2 on a post without comments leaves exactly `[C1, C2]`; and after any
sequence of comment requests for one post its comments are the old ones
followed by the returned ones in request order. -/
theorem C9_comments_in_order (env : Env) :
    (∀ s o u id b c, (addComment s o u id b).2 = .json (.comment c) →
      ∃ post, s.posts.find? (fun p => p.id == id) = some post ∧
        (addComment s o u id b).1.posts.find? (fun p => p.id == id)
          = some { post with comments := post.comments ++ [c] }) ∧
    (∀ s o1 u1 b1 c1 o2 u2 b2 c2 id post,
      s.posts.find? (fun p => p.id == id) = some post → post.comments = [] →
      (addComment s o1 u1 id b1).2 = .json (.comment c1) →
      (addComment (addComment s o1 u1 id b1).1 o2 u2 id b2).2 = .json (.comment c2) →
      (addComment (addComment s o1 u1 id b1).1 o2 u2 id b2).1.posts.find?
          (fun p => p.id == id) = some { post with comments := [c1, c2] }) ∧
    (∀ s id post reqs, s.posts.find? (fun p => p.id == id) = some post →
      (∀ x ∈ reqs, commentsOn id x.2 = true) →
      (serve env s reqs).1.posts.find? (fun p => p.id == id)
        = some { post with
            comments := post.comments ++ returnedComments (serve env s reqs).2 }) := by
  refine ⟨addComment_success, ?_, ?_⟩
  · intro s o1 u1 b1 c1 o2 u2 b2 c2 id post hf hc h1 h2
    have e1 := addComment_find s o1 u1 id b1 post hf
    have e2 := addComment_find _ o2 u2 id b2 _ e1
    rw [e2, h2, h1, hc]
    rfl
  · intro s id post reqs hf hall
    exact serve_comments env id reqs s post hall hf

theorem C9_comments_in_order_witness :
    (run toyEnv scenario).posts.find? (fun p => p.id == "p1") = some scenarioPost ∧
    (∀ x ∈ [(at_ 5 "c1", Request.addComment (some "Bearer u2") "p1" ⟨some "nice"⟩),
        (at_ 6 "c2", Request.addComment (some "Bearer u1") "p1" ⟨some "thanks"⟩)],
      commentsOn "p1" x.2 = true) ∧
    returnedComments (serve toyEnv (run toyEnv scenario)
        [(at_ 5 "c1", Request.addComment (some "Bearer u2") "p1" ⟨some "nice"⟩),
         (at_ 6 "c2", Request.addComment (some "Bearer u1") "p1" ⟨some "thanks"⟩)]).2
      = [⟨"c1", "u2", "u2", "nice", 5⟩, ⟨"c2", "u1", "u1", "thanks", 6⟩] ∧
    (serve toyEnv (run toyEnv scenario)
        [(at_ 5 "c1", Request.addComment (some "Bearer u2") "p1" ⟨some "nice"⟩),
         (at_ 6 "c2", Request.addComment (some "Bearer u1") "p1" ⟨some "thanks"⟩)]).1.posts.find?
        (fun p => p.id == "p1")
      = some { scenarioPost with
          comments := scenarioPost.comments ++ returnedComments
            (serve toyEnv (run toyEnv scenario)
              [(at_ 5 "c1", Request.addComment (some "Bearer u2") "p1" ⟨some "nice"⟩),
               (at_ 6 "c2", Request.addComment (some "Bearer u1") "p1" ⟨some "thanks"⟩)]).2 } :=
  ⟨by decide, by decide, by decide,
    (C9_comments_in_order toyEnv).2.2 (run toyEnv scenario) "p1" scenarioPost
      [(at_ 5 "c1", Request.addComment (some "Bearer u2") "p1" ⟨some "nice"⟩),
       (at_ 6 "c2", Request.addComment (some "Bearer u1") "p1" ⟨some "thanks"⟩)]
      (by decide) (by decide)⟩

/-- C10: the comment handler answers the validation error whenever the content
is empty or absent, whether or not the post id resolves; NotFoundError whenever
the content is non-empty and no post has the id; and succeeds, returning a
comment, in every other case: it succeeds iff the content is non-empty and
some post has the id.  The store is unchanged by both failures. -/
theorem C10_addComment_outcome (s : Store) (o : Oracle) (u : Claims) (id : String)
    (b : CommentBody) :
    (truthy b.content = false → addComment s o u id b = (s, CommentValidationError)) ∧
    (truthy b.content = true → (∀ p ∈ s.posts, p.id ≠ id) →
      addComment s o u id b = (s, NotFoundError)) ∧
    (truthy b.content = true → (∃ p ∈ s.posts, p.id = id) →
      (addComment s o u id b).2
        = .json (.comment ⟨o.uuid, u.userId, u.username, b.content.getD "", o.now⟩)) ∧
    ((addComment s o u id b).2.status = 200 ↔
      truthy b.content = true ∧ ∃ p ∈ s.posts, p.id = id) := by
  have hnf : (∀ p ∈ s.posts, p.id ≠ id) → s.posts.find? (fun p => p.id == id) = none :=
    (find_none_iff s.posts id).2
  have hex : (∃ p ∈ s.posts, p.id = id) →
      ∃ post, s.posts.find? (fun p => p.id == id) = some post := by
    intro ⟨p, hp, hid⟩
    cases hf : s.posts.find? (fun p => p.id == id) with
    | none => exact absurd hid ((find_none_iff s.posts id).1 hf p hp)
    | some post => exact ⟨post, rfl⟩
  refine ⟨?_, ?_, ?_, ?_⟩
  · intro hc
    simp [addComment, hc]
  · intro hc hno
    simp [addComment, hc, hnf hno]
  · intro hc hp
    obtain ⟨post, hf⟩ := hex hp
    simp [addComment, hc, hf]
  · constructor
    · intro hst
      by_cases hc : truthy b.content = true
      · refine ⟨hc, ?_⟩
        by_contra hno
        have hno2 : ∀ p ∈ s.posts, p.id ≠ id := fun p hp hid => hno ⟨p, hp, hid⟩
        simp [addComment, hc, hnf hno2, NotFoundError] at hst
      · simp [addComment, hc, CommentValidationError] at hst
    · intro ⟨hc, hp⟩
      obtain ⟨post, hf⟩ := hex hp
      simp [addComment, hc, hf, Response.json]

theorem C10_addComment_outcome_witness :
    truthy (CommentBody.mk (some "")).content = false ∧
    addComment (run toyEnv scenario) (at_ 5 "c1") (claimsOf "u1") "p1" ⟨some ""⟩
      = (run toyEnv scenario, CommentValidationError) ∧
    truthy (CommentBody.mk (some "hello")).content = true ∧
    (∀ p ∈ (run toyEnv scenario).posts, p.id ≠ "p9") ∧
    addComment (run toyEnv scenario) (at_ 5 "c1") (claimsOf "u1") "p9" ⟨some "hello"⟩
      = (run toyEnv scenario, NotFoundError) ∧
    (∃ p ∈ (run toyEnv scenario).posts, p.id = "p1") ∧
    (addComment (run toyEnv scenario) (at_ 5 "c1") (claimsOf "u1") "p1" ⟨some "hello"⟩).2
      = .json (.comment ⟨"c1", "u1", "u1", "hello", 5⟩) :=
  ⟨by decide,
    (C10_addComment_outcome (run toyEnv scenario) (at_ 5 "c1") (claimsOf "u1") "p1"
      ⟨some ""⟩).1 (by decide),
    by decide, by decide,
    (C10_addComment_outcome (run toyEnv scenario) (at_ 5 "c1") (claimsOf "u1") "p9"
      ⟨some "hello"⟩).2.1 (by decide) (by decide),
    by decide,
    (C10_addComment_outcome (run toyEnv scenario) (at_ 5 "c1") (claimsOf "u1") "p1"
      ⟨some "hello"⟩).2.2.1 (by decide) (by decide)⟩

/-! ## Lemmas on token extraction -/

theorem authMiddleware_eq (env : Env) (o : Oracle) (a : Option String) :
    authMiddleware env o a =
      if !truthy (extractToken a) then .error MissingTokenError
      else
        match env.verify ((extractToken a).getD "") o.now with
        | .ok decoded => .ok decoded
        | .error _ => .error InvalidTokenError := rfl

theorem authMiddleware_missing (env : Env) (o : Oracle) (a : Option String)
    (h : truthy (extractToken a) = false) :
    authMiddleware env o a = .error MissingTokenError := by
  rw [authMiddleware_eq]
  simp [h]

theorem authMiddleware_invalid (env : Env) (o : Oracle) (a : Option String) (t : String)
    (e : JwtError) (ht : extractToken a = some t) (hne : t ≠ "")
    (hv : env.verify t o.now = .error e) :
    authMiddleware env o a = .error InvalidTokenError := by
  rw [authMiddleware_eq]
  simp [ht, truthy, hne, hv]

theorem authMiddleware_ok (env : Env) (o : Oracle) (a : Option String) (t : String)
    (c : Claims) (ht : extractToken a = some t) (hne : t ≠ "")
    (hv : env.verify t o.now = .ok c) :
    authMiddleware env o a = .ok c := by
  rw [authMiddleware_eq]
  simp [ht, truthy, hne, hv]

theorem splitSpace_ne_nil (cs : List Char) : splitSpace cs ≠ [] := by
  cases cs with
  | nil => simp [splitSpace]
  | cons c cs =>
    unfold splitSpace
    split
    · simp
    · split <;> simp

theorem splitSpace_cons_ne (c : Char) (cs : List Char) (hc : c ≠ ' ') :
    splitSpace (c :: cs) =
      match splitSpace cs with
      | [] => [[c]]
      | w :: ws => (c :: w) :: ws := by
  rw [splitSpace, if_neg hc]

theorem splitSpace_of_no_space (cs : List Char) (h : ' ' ∉ cs) : splitSpace cs = [cs] := by
  induction cs with
  | nil => rfl
  | cons c cs ih =>
    have hc : c ≠ ' ' := fun e => h (e ▸ List.mem_cons_self _ _)
    have hcs : ' ' ∉ cs := fun e => h (List.mem_cons_of_mem _ e)
    rw [splitSpace_cons_ne c cs hc, ih hcs]

theorem splitSpace_word (w rest : List Char) (h : ' ' ∉ w) :
    splitSpace (w ++ ' ' :: rest) = w :: splitSpace rest := by
  induction w with
  | nil => simp [splitSpace]
  | cons c w ih =>
    have hc : c ≠ ' ' := fun e => h (e ▸ List.mem_cons_self _ _)
    have hw : ' ' ∉ w := fun e => h (List.mem_cons_of_mem _ e)
    rw [List.cons_append, splitSpace_cons_ne _ _ hc, ih hw]

/-- The second piece of `w ++ " " ++ rest`, for a word `w` without space, is
the first piece of `rest`. -/
theorem extractToken_word (w rest : String) (h : ' ' ∉ w.toList) :
    extractToken (some (w ++ " " ++ rest))
      = ((splitSpace rest.toList).map String.mk)[0]? := by
  have hd : (w ++ " " ++ rest).toList = w.toList ++ ' ' :: rest.toList := by
    simp [String.toList, String.data_append]
  simp only [extractToken, Option.bind, split, hd, splitSpace_word _ _ h, List.map_cons]
  simp

theorem extractToken_no_space (h : String) (hs : ' ' ∉ h.toList) :
    extractToken (some h) = none := by
  have e : splitSpace h.toList = [h.toList] := splitSpace_of_no_space _ hs
  simp only [extractToken, Option.bind, split, e]
  rfl

/-- C11: the post handler answers the validation error, leaving the store as
it is, iff content and image are both absent or empty; otherwise it answers
the new post, which becomes the head of the feed and has an empty like list,
an empty comment list, the given content and image, and as author id and name
the user id and username of the claims the authorization gate resolved. -/
theorem C11_createPost_outcome (env : Env) (s : Store) (o : Oracle) (u : Claims)
    (b : PostBody) :
    ((createPost s o u b).2 = PostValidationError ↔
      truthy b.content = false ∧ truthy b.image = false) ∧
    (truthy b.content = false ∧ truthy b.image = false → (createPost s o u b).1 = s) ∧
    (¬ (truthy b.content = false ∧ truthy b.image = false) →
      createPost s o u b =
        ({ s with posts :=
            ⟨o.uuid, u.userId, u.username, b.content, b.image, [], [], o.now⟩ :: s.posts },
          .json (.post ⟨o.uuid, u.userId, u.username, b.content, b.image, [], [], o.now⟩))) ∧
    (∀ a, authMiddleware env o a = .ok u →
      step env s o (.createPost a b) = createPost s o u b) := by
  refine ⟨?_, ?_, ?_, ?_⟩
  · constructor
    · intro h
      by_contra hc
      have hc2 : ¬ ((!truthy b.content && !truthy b.image) = true) := by
        simpa using hc
      simp only [createPost, if_neg hc2, Response.json, PostValidationError] at h
      simp at h
    · intro ⟨h1, h2⟩
      simp [createPost, h1, h2]
  · intro ⟨h1, h2⟩
    simp [createPost, h1, h2]
  · intro hc
    have hc2 : ¬ ((!truthy b.content && !truthy b.image) = true) := by
      simpa using hc
    simp only [createPost, if_neg hc2]
  · intro a ha
    simp only [step, guarded, ha]

theorem C11_createPost_outcome_witness :
    ¬ (truthy (PostBody.mk (some "hi") none).content = false ∧
        truthy (PostBody.mk (some "hi") none).image = false) ∧
    createPost Store.empty (at_ 2 "p1") (claimsOf "u1") ⟨some "hi", none⟩ =
      (⟨[], [⟨"p1", "u1", "u1", some "hi", none, [], [], 2⟩]⟩,
        .json (.post ⟨"p1", "u1", "u1", some "hi", none, [], [], 2⟩)) ∧
    truthy (PostBody.mk (some "") none).content = false ∧
    truthy (PostBody.mk (some "") none).image = false ∧
    (createPost Store.empty (at_ 2 "p1") (claimsOf "u1") ⟨some "", none⟩).1 = Store.empty :=
  ⟨by decide,
    (C11_createPost_outcome toyEnv Store.empty (at_ 2 "p1") (claimsOf "u1")
      ⟨some "hi", none⟩).2.2.1 (by decide),
    by decide, by decide,
    (C11_createPost_outcome toyEnv Store.empty (at_ 2 "p1") (claimsOf "u1")
      ⟨some "", none⟩).2.1 ⟨by decide, by decide⟩⟩

/-- C12: on the three guarded routes, a request whose header yields no token
is answered with the 401 of line 25, one whose token `jwt.verify` rejects
(whatever the error: bad signature, malformed, expired) with the 401 of line
33, in both cases with the store unchanged and the handler not run; otherwise
the handler runs, with exactly the claims `jwt.verify` returned. -/
theorem C12_no_fall_through (env : Env) (s : Store) (o : Oracle) (req : Request)
    (a : Option String) (handler : Claims → Store × Response)
    (hroute : guardedRoute s o req = some (a, handler)) :
    (truthy (extractToken a) = false → step env s o req = (s, MissingTokenError)) ∧
    (∀ t e, extractToken a = some t → t ≠ "" → env.verify t o.now = .error e →
      step env s o req = (s, InvalidTokenError)) ∧
    (∀ t c, extractToken a = some t → t ≠ "" → env.verify t o.now = .ok c →
      step env s o req = handler c) ∧
    MissingTokenError.status = 401 ∧ InvalidTokenError.status = 401 := by
  have hstep : step env s o req = guarded env s o a handler := by
    cases req with
    | createPost a2 b =>
      simp only [guardedRoute, Option.some.injEq, Prod.mk.injEq] at hroute
      obtain ⟨h1, h2⟩ := hroute
      subst h1; subst h2; rfl
    | toggleLike a2 id =>
      simp only [guardedRoute, Option.some.injEq, Prod.mk.injEq] at hroute
      obtain ⟨h1, h2⟩ := hroute
      subst h1; subst h2; rfl
    | addComment a2 id b =>
      simp only [guardedRoute, Option.some.injEq, Prod.mk.injEq] at hroute
      obtain ⟨h1, h2⟩ := hroute
      subst h1; subst h2; rfl
    | register b => simp [guardedRoute] at hroute
    | login b => simp [guardedRoute] at hroute
    | listPosts => simp [guardedRoute] at hroute
    | health => simp [guardedRoute] at hroute
  rw [hstep]
  refine ⟨?_, ?_, ?_, rfl, rfl⟩
  · intro h
    simp only [guarded, authMiddleware_missing env o a h]
  · intro t e ht hne hv
    simp only [guarded, authMiddleware_invalid env o a t e ht hne hv]
  · intro t c ht hne hv
    simp only [guarded, authMiddleware_ok env o a t c ht hne hv]

theorem C12_no_fall_through_witness :
    guardedRoute (run toyEnv scenario) (at_ 5 "") (.toggleLike (some "Bearer") "p1")
      = some (some "Bearer", fun u => toggleLike (run toyEnv scenario) u "p1") ∧
    truthy (extractToken (some "Bearer")) = false ∧
    step toyEnv (run toyEnv scenario) (at_ 5 "") (.toggleLike (some "Bearer") "p1")
      = (run toyEnv scenario, MissingTokenError) :=
  ⟨rfl, by decide,
    (C12_no_fall_through toyEnv (run toyEnv scenario) (at_ 5 "")
      (.toggleLike (some "Bearer") "p1") (some "Bearer")
      (fun u => toggleLike (run toyEnv scenario) u "p1") rfl).1 (by decide)⟩

/-! ## Lemmas on the second environment -/

theorem dropWhile_replicate (c stop : Char) (h : stop ≠ c) (n : Nat) (rest : List Char) :
    (List.replicate n c ++ stop :: rest).dropWhile (fun x => x == c) = stop :: rest := by
  have hb : (stop == c) = false := by simpa using h
  induction n with
  | zero => simp [List.dropWhile, hb]
  | succ n ih => simpa [List.replicate_succ, List.dropWhile] using ih

theorem takeWhile_replicate (c stop : Char) (h : stop ≠ c) (n : Nat) (rest : List Char) :
    (List.replicate n c ++ stop :: rest).takeWhile (fun x => x == c) = List.replicate n c := by
  have hb : (stop == c) = false := by simpa using h
  induction n with
  | zero => simp [List.takeWhile, hb]
  | succ n ih => simpa [List.replicate_succ, List.takeWhile] using ih

theorem readUnary_replicate (c stop : Char) (h : stop ≠ c) (n : Nat) (rest : List Char) :
    readUnary c stop (List.replicate n c ++ stop :: rest) = some (n, rest) := by
  unfold readUnary
  rw [dropWhile_replicate c stop h, takeWhile_replicate c stop h]
  simp

theorem decode_encode (userId username : String) (iat : Nat) :
    decodeToken (encodeToken userId username iat) = some (iat, userId, username) := by
  have e : (encodeToken userId username iat).toList
      = List.replicate iat 'i' ++ '#' ::
        (List.replicate userId.length 'x' ++ '|' :: (userId.toList ++ username.toList)) := rfl
  have hl : userId.length = userId.toList.length := rfl
  unfold decodeToken
  rw [e, readUnary_replicate 'i' '#' (by decide)]
  simp only
  rw [readUnary_replicate 'x' '|' (by decide)]
  simp only [hl, List.take_left', List.drop_left']
  rfl

theorem tokenEnv_verify_sign (userId username : String) (iat now : Nat)
    (h : now < iat + sevenDays) :
    tokenEnv.verify (tokenEnv.sign userId username iat) now
      = .ok ⟨userId, username, iat, iat + sevenDays⟩ := by
  have hn : ¬ now ≥ iat + sevenDays := by omega
  simp only [tokenEnv, decode_encode, if_neg hn]

theorem tokenEnv_jwtSound : JwtSound tokenEnv := by
  intro userId username iat now _ h2
  exact ⟨_, tokenEnv_verify_sign userId username iat now h2, rfl, rfl⟩

theorem toyEnv_hashSound : HashSound toyEnv := by
  intro p salt h hh
  simp only [toyEnv] at hh ⊢
  injection hh with hh
  simp [hh]

theorem tokenEnv_hashSound : HashSound tokenEnv := toyEnv_hashSound

/-- A successful registration answers with the token signed for the new
record at the time of the request. -/
theorem register_success_token (env : Env) (s : Store) (o : Oracle) (b : RegisterBody)
    (tok : String) (view : UserView)
    (h : (register env s o b).2 = .json (.session tok view)) :
    ∃ n, b.username = some n ∧ tok = env.sign o.uuid n o.now := by
  unfold register at h
  cases hc : registerCheck s b with
  | some r =>
    rw [hc] at h
    simp only at h
    unfold registerCheck at hc
    split at hc
    · injection hc with hc
      rw [← hc] at h
      simp [RegisterValidationError, Response.json] at h
    · split at hc
      · injection hc with hc
        rw [← hc] at h
        simp [DuplicateUsernameError, Response.json] at h
      · simp at hc
  | none =>
    rw [hc] at h
    simp only at h
    obtain ⟨n, hn, _, _, _⟩ := registerCheck_none s b hc
    cases hh : env.hash (b.password.getD "") o.salt with
    | none =>
      rw [hh] at h
      simp [ServerFault, Response.json] at h
    | some hashed =>
      rw [hh] at h
      simp only [registerStore, sessionResponse, Response.json, hn, Option.getD_some] at h
      injection h with _ h
      injection h with h _
      exact ⟨n, hn, h.symm⟩

/-- A successful login for a record answers with the token signed for that
record at the time of the request. -/
theorem login_success_token (env : Env) (s : Store) (o : Oracle) (b : LoginBody)
    (user : User) (tok : String) (view : UserView)
    (hf : s.users.find? (fun u => some u.username == b.username) = some user)
    (h : (login env s o b).2 = .json (.session tok view)) :
    tok = env.sign user.id user.username o.now ∧ view = ⟨user.id, user.username, user.email⟩ := by
  unfold login at h
  rw [hf] at h
  simp only at h
  cases hc : env.compare b.password user.password with
  | none =>
    rw [hc] at h
    simp [ServerFault, Response.json] at h
  | some v =>
    rw [hc] at h
    cases v with
    | false => simp [InvalidCredentialsError, Response.json] at h
    | true =>
      simp only [sessionResponse, Response.json, Bool.not_true, Bool.false_eq_true,
        if_false] at h
      injection h with _ h
      injection h with h1 h2
      exact ⟨h1.symm, h2.symm⟩

/-- C13, as stated, fails: a token with a valid signature checked after its
expiry makes `jwt.verify` throw TokenExpiredError and a forged one makes it
throw JsonWebTokenError, yet the middleware answers both with the same
response, that of line 33. -/
theorem C13_counterexample :
    tokenEnv.verify (encodeToken "u1" "ali" 1) 700000 = .error .TokenExpiredError ∧
    tokenEnv.verify "forged" 700000 = .error .JsonWebTokenError ∧
    authMiddleware tokenEnv ⟨700000, "", 0⟩ (some ("Bearer " ++ encodeToken "u1" "ali" 1))
      = .error InvalidTokenError ∧
    authMiddleware tokenEnv ⟨700000, "", 0⟩ (some "Bearer forged")
      = .error InvalidTokenError :=
  ⟨rfl, rfl, rfl, rfl⟩

/-- C13, amended: whatever error `jwt.verify` throws for a presented token
(expiry with a valid signature included) the middleware answers with the one
response of line 33; a request without token is answered with the response of
line 25, which has the same status 401 and differs from the former. -/
theorem C13_one_invalid_token_kind (env : Env) (o : Oracle) (a : Option String) :
    (∀ t e, extractToken a = some t → t ≠ "" → env.verify t o.now = .error e →
      authMiddleware env o a = .error InvalidTokenError) ∧
    (truthy (extractToken a) = false → authMiddleware env o a = .error MissingTokenError) ∧
    MissingTokenError ≠ InvalidTokenError ∧
    MissingTokenError.status = InvalidTokenError.status :=
  ⟨fun t e ht hne hv => authMiddleware_invalid env o a t e ht hne hv,
    authMiddleware_missing env o a, by decide, rfl⟩

theorem C13_one_invalid_token_kind_witness :
    extractToken (some ("Bearer " ++ encodeToken "u1" "ali" 1))
      = some (encodeToken "u1" "ali" 1) ∧
    encodeToken "u1" "ali" 1 ≠ "" ∧
    tokenEnv.verify (encodeToken "u1" "ali" 1) (Oracle.mk 700000 "" 0).now
      = .error .TokenExpiredError ∧
    authMiddleware tokenEnv ⟨700000, "", 0⟩ (some ("Bearer " ++ encodeToken "u1" "ali" 1))
      = .error InvalidTokenError :=
  ⟨by decide, by decide, rfl,
    (C13_one_invalid_token_kind tokenEnv ⟨700000, "", 0⟩
      (some ("Bearer " ++ encodeToken "u1" "ali" 1))).1 (encodeToken "u1" "ali" 1)
      .TokenExpiredError (by decide) (by decide) rfl⟩

/-- Tokens of a registration run to completion: if a token verifies, before
its expiry seven days after it was signed, to the user id and username it was
signed for, and the registration handler runs from its check to its push with
no other request in between, then the token that a successful registration
returned and the token any later successful login with the same credentials
returned both verify, before their expiry, to claims whose user id is the id
of the user and whose username is its username. -/
theorem tokens_same_claims_sequential (env : Env) (hj : JwtSound env) (s : Store) (o : Oracle)
    (username password : String) (email : Option String) (tokA : String) (view : UserView)
    (hreg : (register env s o ⟨some username, email, some password⟩).2
      = .json (.session tokA view))
    (between : List (Oracle × Request)) (o2 : Oracle) (tokB : String) (viewB : UserView)
    (hlog : (login env (serve env (register env s o ⟨some username, email, some password⟩).1
        between).1 o2 ⟨some username, some password⟩).2 = .json (.session tokB viewB))
    (nowA nowB : Nat) (hA1 : o.now ≤ nowA) (hA2 : nowA < o.now + sevenDays)
    (hB1 : o2.now ≤ nowB) (hB2 : nowB < o2.now + sevenDays) :
    ∃ cA cB, env.verify tokA nowA = .ok cA ∧ env.verify tokB nowB = .ok cB ∧
      cA.userId = view.id ∧ cA.username = view.username ∧
      cB.userId = view.id ∧ cB.username = view.username ∧
      view.username = username ∧ viewB = view := by
  obtain ⟨n, hashed, hn, _, hfresh, husers, hview⟩ :=
    register_success env s o _ tokA view hreg
  obtain ⟨n2, hn2, htokA⟩ := register_success_token env s o _ tokA view hreg
  simp only at hn hn2
  injection hn with hn
  injection hn2 with hn2
  subst hn
  subst hn2
  obtain ⟨extra, hextra⟩ :=
    serve_users env (register env s o ⟨some username, email, some password⟩).1 between
  rw [husers] at hextra
  have hfind := find_user_append s.users extra ⟨o.uuid, username, email, hashed, o.now⟩
    username hfresh rfl
  rw [← hextra] at hfind
  obtain ⟨htokB, hviewB⟩ := login_success_token env _ o2 ⟨some username, some password⟩
    _ tokB viewB hfind hlog
  simp only at htokB hviewB
  obtain ⟨cA, hcA, hA3, hA4⟩ := hj o.uuid username o.now nowA hA1 hA2
  obtain ⟨cB, hcB, hB3, hB4⟩ := hj o.uuid username o2.now nowB hB1 hB2
  refine ⟨cA, cB, ?_, ?_, ?_, ?_, ?_, ?_, ?_, ?_⟩
  · rw [htokA]; exact hcA
  · rw [htokB]; exact hcB
  · rw [hview]; exact hA3
  · rw [hview]; exact hA4
  · rw [hview]; exact hB3
  · rw [hview]; exact hB4
  · rw [hview]
  · rw [hview, hviewB]

theorem tokens_same_claims_sequential_example :
    ∃ cA cB,
      tokenEnv.verify (encodeToken "u1" "ali" 1) 5 = .ok cA ∧
      tokenEnv.verify (encodeToken "u1" "ali" 3) 604802 = .ok cB ∧
      cA.userId = (UserView.mk "u1" "ali" none).id ∧
      cA.username = (UserView.mk "u1" "ali" none).username ∧
      cB.userId = (UserView.mk "u1" "ali" none).id ∧
      cB.username = (UserView.mk "u1" "ali" none).username ∧
      (UserView.mk "u1" "ali" none).username = "ali" ∧
      (UserView.mk "u1" "ali" none) = (UserView.mk "u1" "ali" none) :=
  tokens_same_claims_sequential tokenEnv tokenEnv_jwtSound Store.empty (at_ 1 "u1") "ali" "pw123"
    none (encodeToken "u1" "ali" 1) ⟨"u1", "ali", none⟩ (by decide)
    [(at_ 2 "p1", .createPost (some ("Bearer " ++ encodeToken "u1" "ali" 1)) ⟨some "hi", none⟩)]
    (at_ 3 "") (encodeToken "u1" "ali" 3) ⟨"u1", "ali", none⟩ (by decide)
    5 604802 (by decide) (by decide) (by decide) (by decide)

/-- C20: the middleware takes the second piece of the authorization value cut
at single spaces, whatever the first piece is: for a scheme word without space
the header `scheme ++ " " ++ t` yields the same token and the same outcome as
`"Bearer " ++ t`; an absent header, a header without space and a header whose
second piece is empty (two spaces after the scheme, for one) are answered with
the missing-token response whatever `jwt.verify` would say. -/
theorem C20_token_extraction (scheme t : String) (hs : ' ' ∉ scheme.toList) :
    extractToken (some (scheme ++ " " ++ t)) = extractToken (some ("Bearer " ++ t)) ∧
    (∀ env o, authMiddleware env o (some (scheme ++ " " ++ t))
      = authMiddleware env o (some ("Bearer " ++ t))) ∧
    (∀ env o, authMiddleware env o none = .error MissingTokenError) ∧
    (∀ env o, authMiddleware env o (some scheme) = .error MissingTokenError) ∧
    (∀ env o h, (split h)[1]? = some "" →
      authMiddleware env o (some h) = .error MissingTokenError) ∧
    (∀ env o, authMiddleware env o (some (scheme ++ " " ++ (" " ++ t)))
      = .error MissingTokenError) := by
  have hb : ("Bearer " ++ t) = "Bearer" ++ " " ++ t := by
    rw [String.append_assoc]
    rfl
  have h1 : extractToken (some (scheme ++ " " ++ t))
      = extractToken (some ("Bearer " ++ t)) := by
    rw [hb, extractToken_word scheme t hs, extractToken_word "Bearer" t (by decide)]
  refine ⟨h1, ?_, ?_, ?_, ?_, ?_⟩
  · intro env o
    rw [authMiddleware_eq, authMiddleware_eq, h1]
  · intro env o
    exact authMiddleware_missing env o none rfl
  · intro env o
    exact authMiddleware_missing env o (some scheme)
      (by rw [extractToken_no_space scheme hs]; rfl)
  · intro env o h hh
    apply authMiddleware_missing
    simp only [extractToken, Option.bind, hh]
    rfl
  · intro env o
    apply authMiddleware_missing
    rw [extractToken_word scheme (" " ++ t) hs]
    have e : (" " ++ t).toList = ' ' :: t.toList := by
      simp [String.toList, String.data_append]
    rw [e]
    simp [splitSpace, truthy]

theorem C20_token_extraction_witness :
    ' ' ∉ "Token".toList ∧
    extractToken (some ("Token" ++ " " ++ "u1")) = some "u1" ∧
    extractToken (some ("Token" ++ " " ++ "u1")) = extractToken (some ("Bearer " ++ "u1")) ∧
    step toyEnv (run toyEnv scenario) (at_ 5 "") (.toggleLike (some ("Token" ++ " " ++ "u1")) "p1")
      = step toyEnv (run toyEnv scenario) (at_ 5 "") (.toggleLike (some ("Bearer " ++ "u1")) "p1") :=
  ⟨by decide, by decide,
    (C20_token_extraction "Token" "u1" (by decide)).1,
    by
      have h := (C20_token_extraction "Token" "u1" (by decide)).2.1 toyEnv (at_ 5 "")
      simp only [step, guarded, h]⟩

/-! ## Lemmas for atomicity, growth and frames -/

theorem errorResponses_are_errors :
    ∀ r ∈ errorResponses, r.status ≠ 200 ∧ ∃ msg, r.body = .error msg := by
  intro r hr
  simp only [errorResponses, List.mem_cons, List.mem_singleton, List.not_mem_nil,
    or_false] at hr
  rcases hr with h | h | h | h | h | h | h | h | h <;> subst h <;>
    exact ⟨by decide, _, rfl⟩

theorem register_outcome (env : Env) (s : Store) (o : Oracle) (b : RegisterBody) :
    SuccessOrUntouched s (register env s o b) := by
  unfold register
  cases hc : registerCheck s b with
  | some r =>
    refine Or.inr ⟨rfl, ?_⟩
    unfold registerCheck at hc
    split at hc
    · injection hc with hc
      simp [← hc, errorResponses]
    · split at hc
      · injection hc with hc
        simp [← hc, errorResponses]
      · simp at hc
  | none =>
    simp only
    cases env.hash (b.password.getD "") o.salt with
    | none => exact Or.inr ⟨rfl, by simp [errorResponses]⟩
    | some hashed =>
      exact Or.inl ⟨rfl, by simp [registerStore, sessionResponse, Response.json]⟩

theorem login_outcome (env : Env) (s : Store) (o : Oracle) (b : LoginBody) :
    SuccessOrUntouched s (login env s o b) := by
  unfold login
  split
  · exact Or.inr ⟨rfl, by simp [errorResponses]⟩
  · split
    · exact Or.inr ⟨rfl, by simp [errorResponses]⟩
    · split
      · exact Or.inr ⟨rfl, by simp [errorResponses]⟩
      · exact Or.inl ⟨rfl, by simp [sessionResponse, Response.json]⟩

theorem createPost_outcome (s : Store) (o : Oracle) (u : Claims) (b : PostBody) :
    SuccessOrUntouched s (createPost s o u b) := by
  unfold createPost
  split
  · exact Or.inr ⟨rfl, by simp [errorResponses]⟩
  · exact Or.inl ⟨rfl, by simp [Response.json]⟩

theorem toggleLike_outcome (s : Store) (u : Claims) (id : String) :
    SuccessOrUntouched s (toggleLike s u id) := by
  unfold toggleLike
  split
  · exact Or.inr ⟨rfl, by simp [errorResponses]⟩
  · exact Or.inl ⟨rfl, by simp [Response.json]⟩

theorem addComment_outcome (s : Store) (o : Oracle) (u : Claims) (id : String)
    (b : CommentBody) : SuccessOrUntouched s (addComment s o u id b) := by
  unfold addComment
  split
  · exact Or.inr ⟨rfl, by simp [errorResponses]⟩
  · split
    · exact Or.inr ⟨rfl, by simp [errorResponses]⟩
    · exact Or.inl ⟨rfl, by simp [Response.json]⟩

theorem guarded_outcome (env : Env) (s : Store) (o : Oracle) (a : Option String)
    (handler : Claims → Store × Response) (h : ∀ u, SuccessOrUntouched s (handler u)) :
    SuccessOrUntouched s (guarded env s o a handler) := by
  rcases guarded_cases2 env s o a handler with hg | hg | ⟨u, hg⟩
  · rw [hg]; exact Or.inr ⟨rfl, by simp [errorResponses]⟩
  · rw [hg]; exact Or.inr ⟨rfl, by simp [errorResponses]⟩
  · rw [hg]; exact h u

theorem step_outcome (env : Env) (s : Store) (o : Oracle) (req : Request) :
    SuccessOrUntouched s (step env s o req) := by
  cases req with
  | register b => exact register_outcome env s o b
  | login b => exact login_outcome env s o b
  | createPost a b => exact guarded_outcome env s o a _ (fun u => createPost_outcome s o u b)
  | listPosts => exact Or.inl ⟨rfl, by simp [step, listPosts, Response.json]⟩
  | toggleLike a id => exact guarded_outcome env s o a _ (fun u => toggleLike_outcome s u id)
  | addComment a id b =>
    exact guarded_outcome env s o a _ (fun u => addComment_outcome s o u id b)
  | health => exact Or.inl ⟨rfl, by simp [step, health, Response.json]⟩

/-- C15: every request either succeeds (status 200, body not an error) or is
answered with exactly one of the nine error responses, each of which has a
status other than 200 and an error body, and then leaves users and posts as
they were; in particular a registration whose checks pass and whose hashing
fails is answered with the server fault and stores nothing. -/
theorem C15_atomic_on_error (env : Env) (s : Store) (o : Oracle) (req : Request) :
    (((step env s o req).2.status = 200 ∧ ∀ msg, (step env s o req).2.body ≠ .error msg) ∨
      ((step env s o req).1 = s ∧ (step env s o req).2 ∈ errorResponses)) ∧
    ((step env s o req).2.status ≠ 200 → (step env s o req).1 = s) ∧
    (∀ r ∈ errorResponses, r.status ≠ 200 ∧ ∃ msg, r.body = .error msg) ∧
    (∀ b, registerCheck s b = none → env.hash (b.password.getD "") o.salt = none →
      register env s o b = (s, ServerFault)) := by
  refine ⟨step_outcome env s o req, ?_, errorResponses_are_errors, ?_⟩
  · intro h
    rcases step_outcome env s o req with ⟨h200, _⟩ | ⟨hs, _⟩
    · exact absurd h200 h
    · exact hs
  · intro b hc hh
    simp only [register, hc, hh]

theorem C15_atomic_on_error_witness :
    (step toyEnv (run toyEnv scenario) (at_ 5 "c1")
        (.addComment (some "Bearer u1") "p9" ⟨some "hello"⟩)).2.status ≠ 200 ∧
    (step toyEnv (run toyEnv scenario) (at_ 5 "c1")
        (.addComment (some "Bearer u1") "p9" ⟨some "hello"⟩)).1 = run toyEnv scenario :=
  ⟨by decide,
    (C15_atomic_on_error toyEnv (run toyEnv scenario) (at_ 5 "c1")
      (.addComment (some "Bearer u1") "p9" ⟨some "hello"⟩)).2.1 (by decide)⟩

theorem postGrows_refl (p : Post) : PostGrows p p := ⟨rfl, List.prefix_refl _⟩

theorem forall2_postGrows_refl (ps : List Post) : List.Forall₂ PostGrows ps ps := by
  induction ps with
  | nil => exact List.Forall₂.nil
  | cons p rest ih => exact List.Forall₂.cons (postGrows_refl p) ih

/-- Rewriting the found post by a map that grows it grows the feed pointwise. -/
theorem mutateFound_grows (ps : List Post) (id : String) (f : Post → Post)
    (hf : ∀ p, ps.find? (fun p => p.id == id) = some p → PostGrows p (f p)) :
    List.Forall₂ PostGrows ps (mutateFound ps id f) := by
  induction ps with
  | nil => exact List.Forall₂.nil
  | cons p rest ih =>
    unfold mutateFound
    by_cases hp : (p.id == id) = true
    · rw [if_pos hp]
      exact List.Forall₂.cons (hf p (by simp [List.find?, hp])) (forall2_postGrows_refl rest)
    · rw [if_neg hp]
      have hp2 : (p.id == id) = false := by simpa using hp
      refine List.Forall₂.cons (postGrows_refl p) (ih ?_)
      intro q hq
      exact hf q (by simp only [List.find?, hp2]; exact hq)

theorem createPost_grows (s : Store) (o : Oracle) (u : Claims) (b : PostBody) :
    ∃ fresh kept, (createPost s o u b).1.posts = fresh ++ kept ∧
      List.Forall₂ PostGrows s.posts kept := by
  unfold createPost
  split
  · exact ⟨[], s.posts, rfl, forall2_postGrows_refl _⟩
  · exact ⟨[_], s.posts, rfl, forall2_postGrows_refl _⟩

theorem toggleLike_grows (s : Store) (u : Claims) (id : String) :
    ∃ fresh kept, (toggleLike s u id).1.posts = fresh ++ kept ∧
      List.Forall₂ PostGrows s.posts kept := by
  unfold toggleLike
  split
  · exact ⟨[], s.posts, rfl, forall2_postGrows_refl _⟩
  · refine ⟨[], _, rfl, mutateFound_grows _ _ _ ?_⟩
    intro p _
    exact ⟨rfl, List.prefix_refl _⟩

theorem addComment_grows (s : Store) (o : Oracle) (u : Claims) (id : String)
    (b : CommentBody) :
    ∃ fresh kept, (addComment s o u id b).1.posts = fresh ++ kept ∧
      List.Forall₂ PostGrows s.posts kept := by
  unfold addComment
  split
  · exact ⟨[], s.posts, rfl, forall2_postGrows_refl _⟩
  · split
    · exact ⟨[], s.posts, rfl, forall2_postGrows_refl _⟩
    · rename_i post hfind
      refine ⟨[], _, rfl, mutateFound_grows _ _ _ ?_⟩
      intro p hp
      rw [hfind] at hp
      injection hp with hp
      subst hp
      exact ⟨rfl, List.prefix_append _ _⟩

theorem guarded_grows (env : Env) (s : Store) (o : Oracle) (a : Option String)
    (handler : Claims → Store × Response)
    (h : ∀ u, ∃ fresh kept, (handler u).1.posts = fresh ++ kept ∧
      List.Forall₂ PostGrows s.posts kept) :
    ∃ fresh kept, (guarded env s o a handler).1.posts = fresh ++ kept ∧
      List.Forall₂ PostGrows s.posts kept := by
  rcases guarded_cases env s o a handler with ⟨r, hr⟩ | ⟨u, hu⟩
  · rw [hr]; exact ⟨[], s.posts, rfl, forall2_postGrows_refl _⟩
  · rw [hu]; exact h u

/-- C17: whatever the request, the user records present before it are an
initial segment of those present after it, unchanged; and the feed after it is
some new posts followed by the old posts in their order, each with the same
id, author, content, image and creation time and with its old comments as an
initial segment of its new ones. -/
theorem C17_monotonic_growth (env : Env) (s : Store) (o : Oracle) (req : Request) :
    (∃ extra, (step env s o req).1.users = s.users ++ extra) ∧
    (∃ fresh kept, (step env s o req).1.posts = fresh ++ kept ∧
      List.Forall₂ PostGrows s.posts kept) := by
  constructor
  · exact serve_users env s [(o, req)]
  · cases req with
    | register b =>
      refine ⟨[], s.posts, ?_, forall2_postGrows_refl _⟩
      simp only [step, register_posts, List.nil_append]
    | login b =>
      refine ⟨[], s.posts, ?_, forall2_postGrows_refl _⟩
      simp only [step, login]
      split
      · rfl
      · split
        · rfl
        · split <;> rfl
    | createPost a b => exact guarded_grows env s o a _ (fun u => createPost_grows s o u b)
    | listPosts => exact ⟨[], s.posts, rfl, forall2_postGrows_refl _⟩
    | toggleLike a id => exact guarded_grows env s o a _ (fun u => toggleLike_grows s u id)
    | addComment a id b =>
      exact guarded_grows env s o a _ (fun u => addComment_grows s o u id b)
    | health => exact ⟨[], s.posts, rfl, forall2_postGrows_refl _⟩

/-- With pairwise distinct ids, rewriting the found post is a map over the feed. -/
theorem mutateFound_eq_map (ps : List Post) (id : String) (f g : Post → Post) (post : Post)
    (hd : (ps.map Post.id).Nodup) (hf : ps.find? (fun p => p.id == id) = some post)
    (hfg : f post = g post) :
    mutateFound ps id f = ps.map (fun p => if p.id = id then g p else p) := by
  induction ps with
  | nil => simp at hf
  | cons p rest ih =>
    rw [List.map_cons, List.nodup_cons] at hd
    unfold mutateFound
    by_cases hp : (p.id == id) = true
    · have hpid : p.id = id := by simpa using hp
      simp only [List.find?, hp] at hf
      injection hf with hf
      subst hf
      rw [if_pos hp, List.map_cons, if_pos hpid, hfg]
      congr 1
      symm
      have hm : ∀ q ∈ rest, (fun p => if p.id = id then g p else p) q = (fun q => q) q := by
        intro q hq
        have hne : q.id ≠ id := by
          intro e
          exact hd.1 (List.mem_map.2 ⟨q, hq, by rw [e, hpid]⟩)
        simp only [if_neg hne]
      rw [List.map_congr_left hm]
      simp
    · have hp2 : (p.id == id) = false := by simpa using hp
      have hpid : p.id ≠ id := by simpa using hp
      simp only [List.find?, hp2] at hf
      rw [if_neg hp, List.map_cons, if_neg hpid, ih hd.2 hf]

/-- C18: when the ids of the posts in the feed are pairwise distinct, a
successful like toggle leaves the users as they are and maps the feed post by
post, changing only the likes of the post with the given id; a successful
comment does the same, changing only the comments of that post, to which it
appends the returned comment.  Length and order of the feed, every other
post and every other field of the targeted post are therefore unchanged. -/
theorem C18_frame (s : Store) (o : Oracle) (u : Claims) (id : String) (b : CommentBody)
    (hd : (s.posts.map Post.id).Nodup) :
    (∀ n, (toggleLike s u id).2 = .json (.likes n) →
      (toggleLike s u id).1.users = s.users ∧
      (toggleLike s u id).1.posts = s.posts.map (fun p =>
        if p.id = id then { p with likes := toggled p.likes u.userId } else p) ∧
      (toggleLike s u id).1.posts.length = s.posts.length) ∧
    (∀ c, (addComment s o u id b).2 = .json (.comment c) →
      (addComment s o u id b).1.users = s.users ∧
      (addComment s o u id b).1.posts = s.posts.map (fun p =>
        if p.id = id then { p with comments := p.comments ++ [c] } else p) ∧
      (addComment s o u id b).1.posts.length = s.posts.length) := by
  constructor
  · intro n hn
    cases hf : s.posts.find? (fun p => p.id == id) with
    | none =>
      simp [toggleLike, hf, NotFoundError, Response.json] at hn
    | some post =>
      have hp : (toggleLike s u id).1.posts = s.posts.map (fun p =>
          if p.id = id then { p with likes := toggled p.likes u.userId } else p) := by
        rw [toggleLike_found s u id post hf]
        exact mutateFound_eq_map s.posts id _ _ post hd hf rfl
      exact ⟨toggleLike_users s u id, hp, by rw [hp, List.length_map]⟩
  · intro c hc
    cases hf : s.posts.find? (fun p => p.id == id) with
    | none =>
      unfold addComment at hc
      rw [hf] at hc
      split at hc <;> simp [CommentValidationError, NotFoundError, Response.json] at hc
    | some post =>
      have hp : (addComment s o u id b).1.posts = s.posts.map (fun p =>
          if p.id = id then { p with comments := p.comments ++ [c] } else p) := by
        unfold addComment at hc ⊢
        rw [hf] at hc ⊢
        split
        · rename_i hv
          rw [if_pos hv] at hc
          simp [CommentValidationError, Response.json] at hc
        · rename_i hv
          rw [if_neg hv] at hc
          simp only [Response.json] at hc
          injection hc with _ hc
          injection hc with hc
          simp only
          rw [hc]
          exact mutateFound_eq_map s.posts id _ _ post hd hf rfl
      exact ⟨addComment_users s o u id b, hp, by rw [hp, List.length_map]⟩

theorem C18_frame_witness :
    ((run toyEnv scenario).posts.map Post.id).Nodup ∧
    (toggleLike (run toyEnv scenario) (claimsOf "u3") "p1").2 = .json (.likes 3) ∧
    (toggleLike (run toyEnv scenario) (claimsOf "u3") "p1").1.users
      = (run toyEnv scenario).users ∧
    (toggleLike (run toyEnv scenario) (claimsOf "u3") "p1").1.posts
      = (run toyEnv scenario).posts.map (fun p =>
        if p.id = "p1" then { p with likes := toggled p.likes (claimsOf "u3").userId }
        else p) ∧
    (toggleLike (run toyEnv scenario) (claimsOf "u3") "p1").1.posts.length
      = (run toyEnv scenario).posts.length :=
  ⟨by decide, by decide,
    (C18_frame (run toyEnv scenario) (at_ 5 "c1") (claimsOf "u3") "p1" ⟨some "x"⟩
      (by decide)).1 3 (by decide)⟩

/-! ## The event loop and the sequential handler -/

theorem register_eq_check_resume (env : Env) (s : Store) (o : Oracle) (b : RegisterBody) :
    register env s o b =
      match registerCheck s b with
      | some r => (s, r)
      | none => registerResume env s o b := rfl

/-- A registration that arrives and settles with nothing else in between is
the handler run to completion. -/
theorem turn_register_alone (env : Env) (s : Store) (sent : List Response) (o : Oracle)
    (b : RegisterBody) :
    (match registerCheck s b with
      | some _ => turn env ⟨s, [], sent⟩ (.arrive o (.register b))
      | none => turn env (turn env ⟨s, [], sent⟩ (.arrive o (.register b))) (.settle 0))
      = ⟨(register env s o b).1, [], sent ++ [(register env s o b).2]⟩ := by
  rw [register_eq_check_resume]
  cases hc : registerCheck s b with
  | some r => simp [turn, hc]
  | none => simp [turn, hc]

/-- C16, evaluated on the code: two registrations for the username "ali" are
in flight together, both run the check of line 47 before either reaches the
push of line 63; both are answered with status 200 and the users array ends
with two records named "ali", so usernames are no longer unique. -/
theorem C16_racing_registers_both_succeed :
    (runLoop toyEnv racingRegisters).sent
      = [.json (.session "u1" ⟨"u1", "ali", none⟩), .json (.session "u2" ⟨"u2", "ali", none⟩)] ∧
    (runLoop toyEnv racingRegisters).store.users
      = [⟨"u1", "ali", none, "pw123", 1⟩, ⟨"u2", "ali", none, "other", 2⟩] ∧
    ¬ UsernamesUnique (runLoop toyEnv racingRegisters).store := by
  refine ⟨by decide, by decide, ?_⟩
  have h : (runLoop toyEnv racingRegisters).store.users
      = [⟨"u1", "ali", none, "pw123", 1⟩, ⟨"u2", "ali", none, "other", 2⟩] := by decide
  unfold UsernamesUnique
  rw [h]
  simp

/-! ## Lemmas on repeated toggles -/

theorem mem_toggled_of_ne (l : List String) (v w : String) (h : w ≠ v) :
    w ∈ toggled l v ↔ w ∈ l := by
  unfold toggled
  split
  · exact List.mem_erase_of_ne h
  · simp [h]

/-- Membership after a run of toggles, read off the parity of the counts. -/
theorem foldl_toggled_parity (vs : List String) :
    ∀ (l acc : List String), l.Nodup → (∀ w, w ∈ l ↔ acc.count w % 2 = 1) →
      (vs.foldl toggled l).Nodup ∧
      ∀ w, w ∈ vs.foldl toggled l ↔ (acc ++ vs).count w % 2 = 1 := by
  induction vs with
  | nil =>
    intro l acc hnd h
    simpa using ⟨hnd, h⟩
  | cons v vs ih =>
    intro l acc hnd h
    have hnd2 := toggled_nodup2 l v hnd
    have h2 : ∀ w, w ∈ toggled l v ↔ (acc ++ [v]).count w % 2 = 1 := by
      intro w
      by_cases hw : w = v
      · subst hw
        rw [mem_toggled_self l w hnd, h w, List.count_append]
        simp only [List.count_singleton_self]
        omega
      · rw [mem_toggled_of_ne l v w hw, h w, List.count_append]
        have : [v].count w = 0 := by
          rw [List.count_eq_zero]
          simpa using hw
        rw [this, Nat.add_zero]
    have := ih (toggled l v) (acc ++ [v]) hnd2 h2
    simpa [List.foldl, List.append_assoc] using this

theorem find_mutateFound_ne (ps : List Post) (id id2 : String) (f : Post → Post)
    (hne : id2 ≠ id) (hf : ∀ q, (f q).id = q.id) :
    (mutateFound ps id2 f).find? (fun p => p.id == id) = ps.find? (fun p => p.id == id) := by
  induction ps with
  | nil => rfl
  | cons q rest ih =>
    unfold mutateFound
    by_cases hq : (q.id == id2) = true
    · have hq2 : q.id = id2 := by simpa using hq
      have h1 : ((f q).id == id) = false := by
        rw [hf, hq2]
        simpa using hne
      have h2 : (q.id == id) = false := by
        rw [hq2]
        simpa using hne
      rw [if_pos hq]
      simp only [List.find?, h1, h2]
    · rw [if_neg hq]
      by_cases hq3 : (q.id == id) = true
      · simp only [List.find?, hq3]
      · have hq4 : (q.id == id) = false := by simpa using hq3
        simp only [List.find?, hq4]
        exact ih

theorem login_store (env : Env) (s : Store) (o : Oracle) (b : LoginBody) :
    (login env s o b).1 = s := by
  unfold login
  split
  · rfl
  · split
    · rfl
    · split <;> rfl

theorem toggleLike_find_ne (s : Store) (u : Claims) (id pid : String) (hne : id ≠ pid) :
    (toggleLike s u id).1.posts.find? (fun q => q.id == pid)
      = s.posts.find? (fun q => q.id == pid) := by
  unfold toggleLike
  split
  · rfl
  · exact find_mutateFound_ne s.posts pid id _ hne (fun _ => rfl)

theorem addComment_find_ne (s : Store) (o : Oracle) (u : Claims) (id pid : String)
    (b : CommentBody) (hne : id ≠ pid) :
    (addComment s o u id b).1.posts.find? (fun q => q.id == pid)
      = s.posts.find? (fun q => q.id == pid) := by
  unfold addComment
  split
  · rfl
  · split
    · rfl
    · exact find_mutateFound_ne s.posts pid id _ hne (fun _ => rfl)

theorem createPost_find_ne (s : Store) (o : Oracle) (u : Claims) (b : PostBody) (pid : String)
    (hne : (o.uuid != pid) = true) :
    (createPost s o u b).1.posts.find? (fun q => q.id == pid)
      = s.posts.find? (fun q => q.id == pid) := by
  unfold createPost
  split
  · rfl
  · have h : (o.uuid == pid) = false := by simpa using hne
    simp only [List.find?, h]

/-- What one request does to the post found under the id `pid`. -/
theorem step_like_find (env : Env) (s : Store) (o : Oracle) (req : Request) (pid : String)
    (p : Post) (hf : s.posts.find? (fun q => q.id == pid) = some p)
    (hc : createsOther pid (o, req) = true) :
    ∃ p2, (step env s o req).1.posts.find? (fun q => q.id == pid) = some p2 ∧
      p2.frozen = p.frozen ∧
      p2.likes = match likeToggler env pid (o, req) with
        | some v => toggled p.likes v
        | none => p.likes := by
  cases req with
  | register b =>
    refine ⟨p, ?_, rfl, rfl⟩
    simp only [step, register_posts, hf]
  | login b =>
    refine ⟨p, ?_, rfl, rfl⟩
    simp only [step, login_store, hf]
  | listPosts => exact ⟨p, hf, rfl, rfl⟩
  | health => exact ⟨p, hf, rfl, rfl⟩
  | createPost a b =>
    refine ⟨p, ?_, rfl, rfl⟩
    simp only [step]
    rcases guarded_cases env s o a (fun u => createPost s o u b) with ⟨r, hr⟩ | ⟨u, hu⟩
    · rw [hr]; exact hf
    · rw [hu, createPost_find_ne s o u b pid (by simpa [createsOther] using hc)]
      exact hf
  | addComment a id b =>
    simp only [step]
    rcases guarded_cases env s o a (fun u => addComment s o u id b) with ⟨r, hr⟩ | ⟨u, hu⟩
    · rw [hr]; exact ⟨p, hf, rfl, rfl⟩
    · rw [hu]
      by_cases hid : id = pid
      · subst hid
        exact ⟨_, addComment_find s o u id b p hf, rfl, rfl⟩
      · rw [addComment_find_ne s o u id pid b hid]
        exact ⟨p, hf, rfl, rfl⟩
  | toggleLike a id =>
    simp only [step, guarded, likeToggler]
    cases authMiddleware env o a with
    | error r =>
      refine ⟨p, hf, rfl, ?_⟩
      simp
    | ok c =>
      simp only
      by_cases hid : id = pid
      · subst hid
        refine ⟨_, toggleLike_find s c id p hf, rfl, ?_⟩
        simp
      · rw [toggleLike_find_ne s c id pid hid]
        refine ⟨p, hf, rfl, ?_⟩
        simp [hid]

/-- What a sequence of requests does to the post found under the id `pid`,
when none of them creates a post with that id. -/
theorem serve_like_find (env : Env) (pid : String) (reqs : List (Oracle × Request)) :
    ∀ (s : Store) (p : Post), s.posts.find? (fun q => q.id == pid) = some p →
      (∀ x ∈ reqs, createsOther pid x = true) →
      ∃ p2, (serve env s reqs).1.posts.find? (fun q => q.id == pid) = some p2 ∧
        p2.frozen = p.frozen ∧
        p2.likes = (likeTogglers env pid reqs).foldl toggled p.likes := by
  induction reqs with
  | nil =>
    intro s p hf _
    exact ⟨p, hf, rfl, rfl⟩
  | cons x rest ih =>
    intro s p hf hall
    obtain ⟨o, req⟩ := x
    obtain ⟨p1, h1, hfr1, hl1⟩ :=
      step_like_find env s o req pid p hf (hall (o, req) (List.mem_cons_self _ _))
    obtain ⟨p2, h2, hfr2, hl2⟩ :=
      ih _ p1 h1 (fun y hy => hall y (List.mem_cons_of_mem _ hy))
    refine ⟨p2, h2, hfr2.trans hfr1, ?_⟩
    rw [hl2, hl1]
    cases hlt : likeToggler env pid (o, req) with
    | none => simp [likeTogglers, List.filterMap_cons, hlt]
    | some v => simp [likeTogglers, List.filterMap_cons, hlt]

theorem createPost_success_fresh (s : Store) (o : Oracle) (u : Claims) (b : PostBody)
    (p : Post) (h : (createPost s o u b).2 = .json (.post p)) :
    p.id = o.uuid ∧ p.likes = [] ∧ p.comments = [] := by
  unfold createPost at h
  split at h
  · simp [PostValidationError, Response.json] at h
  · simp only [Response.json] at h
    injection h with _ h
    injection h with h
    subst h
    exact ⟨rfl, rfl, rfl⟩

/-- C19: from the creation of a post on, as long as no later creation draws
the same id, the post found under its id is that post (same id, author,
content, image, creation time) and a user id is in its like list iff the
number of like toggles made on it under that user id since its creation is
odd; the like count is the number of distinct user ids with an odd number of
toggles. -/
theorem C19_like_parity (env : Env) (s : Store) (o : Oracle) (u : Claims) (b : PostBody)
    (created : Post) (hcreate : (createPost s o u b).2 = .json (.post created))
    (reqs : List (Oracle × Request)) (hfresh : ∀ x ∈ reqs, createsOther created.id x = true) :
    ∃ post,
      (serve env (createPost s o u b).1 reqs).1.posts.find? (fun q => q.id == created.id)
        = some post ∧
      post.frozen = created.frozen ∧
      (∀ v, v ∈ post.likes ↔ Odd ((likeTogglers env created.id reqs).count v)) ∧
      post.likes.length =
        ((likeTogglers env created.id reqs).dedup.filter
          (fun v => (likeTogglers env created.id reqs).count v % 2 = 1)).length := by
  obtain ⟨_, hlikes, _⟩ := createPost_success_fresh s o u b created hcreate
  have hposts := createPost_success s o u b created hcreate
  have hfind : (createPost s o u b).1.posts.find? (fun q => q.id == created.id)
      = some created := by
    rw [hposts]
    simp [List.find?]
  obtain ⟨post, hf, hfr, hl⟩ := serve_like_find env created.id reqs _ created hfind hfresh
  obtain ⟨hnd, hmem⟩ := foldl_toggled_parity (likeTogglers env created.id reqs)
    created.likes [] (by rw [hlikes]; exact List.nodup_nil) (by intro w; simp [hlikes])
  rw [← hl] at hnd hmem
  simp only [List.nil_append] at hmem
  refine ⟨post, hf, hfr, ?_, ?_⟩
  · intro v
    rw [hmem v, Nat.odd_iff]
  · apply List.Perm.length_eq
    rw [List.perm_ext_iff_of_nodup hnd ((List.nodup_dedup _).filter _)]
    intro v
    rw [hmem v, List.mem_filter, List.mem_dedup, decide_eq_true_iff]
    constructor
    · intro h
      refine ⟨?_, h⟩
      rw [← List.count_pos_iff]
      omega
    · exact fun h => h.2

theorem C19_like_parity_witness :
    (createPost Store.empty (at_ 2 "p1") (claimsOf "u1") ⟨some "hi", none⟩).2
      = .json (.post ⟨"p1", "u1", "u1", some "hi", none, [], [], 2⟩) ∧
    likeTogglers toyEnv "p1"
        [(at_ 3 "", .toggleLike (some "Bearer u1") "p1"),
         (at_ 4 "", .toggleLike (some "Bearer u2") "p1"),
         (at_ 5 "", .toggleLike (some "Bearer u1") "p1")] = ["u1", "u2", "u1"] ∧
    ∃ post,
      (serve toyEnv (createPost Store.empty (at_ 2 "p1") (claimsOf "u1") ⟨some "hi", none⟩).1
        [(at_ 3 "", .toggleLike (some "Bearer u1") "p1"),
         (at_ 4 "", .toggleLike (some "Bearer u2") "p1"),
         (at_ 5 "", .toggleLike (some "Bearer u1") "p1")]).1.posts.find?
          (fun q => q.id == (Post.mk "p1" "u1" "u1" (some "hi") none [] [] 2).id) = some post ∧
      post.frozen = (Post.mk "p1" "u1" "u1" (some "hi") none [] [] 2).frozen ∧
      (∀ v, v ∈ post.likes ↔ Odd ((likeTogglers toyEnv
        (Post.mk "p1" "u1" "u1" (some "hi") none [] [] 2).id
        [(at_ 3 "", .toggleLike (some "Bearer u1") "p1"),
         (at_ 4 "", .toggleLike (some "Bearer u2") "p1"),
         (at_ 5 "", .toggleLike (some "Bearer u1") "p1")]).count v)) ∧
      post.likes.length =
        ((likeTogglers toyEnv (Post.mk "p1" "u1" "u1" (some "hi") none [] [] 2).id
          [(at_ 3 "", .toggleLike (some "Bearer u1") "p1"),
           (at_ 4 "", .toggleLike (some "Bearer u2") "p1"),
           (at_ 5 "", .toggleLike (some "Bearer u1") "p1")]).dedup.filter
          (fun v => (likeTogglers toyEnv (Post.mk "p1" "u1" "u1" (some "hi") none [] [] 2).id
            [(at_ 3 "", .toggleLike (some "Bearer u1") "p1"),
             (at_ 4 "", .toggleLike (some "Bearer u2") "p1"),
             (at_ 5 "", .toggleLike (some "Bearer u1") "p1")]).count v % 2 = 1)).length :=
  ⟨by decide, by decide,
    C19_like_parity toyEnv Store.empty (at_ 2 "p1") (claimsOf "u1") ⟨some "hi", none⟩
      ⟨"p1", "u1", "u1", some "hi", none, [], [], 2⟩ (by decide)
      [(at_ 3 "", .toggleLike (some "Bearer u1") "p1"),
       (at_ 4 "", .toggleLike (some "Bearer u2") "p1"),
       (at_ 5 "", .toggleLike (some "Bearer u1") "p1")] (by decide)⟩

/-! ## Registration in flight: what the race does to login and tokens -/

/-- C6, evaluated on the code: the hashing primitive accepts every password
against its own hashes, two registrations for "ali" are in flight together
and both are answered with status 200, the second with a user of id "u2".  A
login made afterwards with the credentials of the second finds the first
record (line 90) and is refused; when both registered the same password the
login succeeds but returns the user of id "u1", not "u2". -/
theorem C6_racing_register_then_login :
    HashSound toyEnv ∧
    (runLoop toyEnv racingThenLogin).sent
      = [.json (.session "u1" ⟨"u1", "ali", none⟩), .json (.session "u2" ⟨"u2", "ali", none⟩),
          InvalidCredentialsError] ∧
    (runLoop toyEnv racingSameCredentials).sent
      = [.json (.session "u1" ⟨"u1", "ali", none⟩), .json (.session "u2" ⟨"u2", "ali", none⟩),
          .json (.session "u1" ⟨"u1", "ali", none⟩)] :=
  ⟨toyEnv_hashSound, by decide, by decide⟩

/-- C14, evaluated on the code: the token primitives verify a token, before
its expiry, to what it was signed for; two registrations for "ali" with the
same password are in flight together and both succeed, the second creating the
user of id "u2" and returning a token for it.  The later login with the same
credentials succeeds and returns a token signed for the record of id "u1";
presented to the middleware before expiry, the registration token resolves to
user id "u2" and the login token to user id "u1". -/
theorem C14_racing_tokens_differ :
    JwtSound tokenEnv ∧
    (runLoop tokenEnv racingSameCredentials).sent
      = [.json (.session (encodeToken "u1" "ali" 1) ⟨"u1", "ali", none⟩),
          .json (.session (encodeToken "u2" "ali" 2) ⟨"u2", "ali", none⟩),
          .json (.session (encodeToken "u1" "ali" 3) ⟨"u1", "ali", none⟩)] ∧
    authMiddleware tokenEnv (at_ 4 "") (some ("Bearer " ++ encodeToken "u2" "ali" 2))
      = .ok ⟨"u2", "ali", 2, 2 + sevenDays⟩ ∧
    authMiddleware tokenEnv (at_ 4 "") (some ("Bearer " ++ encodeToken "u1" "ali" 3))
      = .ok ⟨"u1", "ali", 3, 3 + sevenDays⟩ :=
  ⟨tokenEnv_jwtSound, by decide, rfl, rfl⟩

end ApiServer
